import Mathlib

/- Verification development for the media identification pipeline of
   trakt_helper.py: the filename parser (parse_filename), the hash resolver
   (search_hash), the movie text resolver (search_text_movie) and the
   orchestrator (action_resolve).

   Strings are represented as lists of Unicode code points (naturals), which
   mirrors Python text strings one code point at a time and keeps every
   definition computable by kernel reduction. -/

namespace TraktHelper

/-! ## A backtracking regular-expression engine

parse_filename works by running an ordered list of Python regular expressions
(compiled with re.VERBOSE | re.IGNORECASE) against the filename with re.match.
The engine below implements exactly the features those patterns use:
anchored-at-start matching, IGNORECASE, named capturing groups,
backreferences, positive lookahead, greedy and lazy quantifiers, character
classes, the dot (which does not match a newline) and the dollar anchor
(end of string, or just before a trailing newline).  It is a
continuation-passing backtracking matcher whose alternative order follows
Python's: leftmost alternative first, greedy quantifiers longest first, lazy
quantifiers shortest first.  The first result found is the Python match. -/

/-- One item of a character class: a single code point or an inclusive range. -/
inductive Citem where
  | ch (c : Nat)
  | rng (lo hi : Nat)

/-- Abstract syntax of the regular-expression fragment used by the patterns. -/
inductive Re where
  | eps
  | chr (c : Nat)
  | cls (neg : Bool) (items : List Citem)
  | any
  | seq (a b : Re)
  | alt (a b : Re)
  | star (lz : Bool) (r : Re)
  | grp (name : String) (r : Re)
  | bref (name : String)
  | look (r : Re)
  | eol

/-- ASCII lower-casing of a code point (how re.IGNORECASE compares the
characters appearing in these patterns). -/
def lowerN (n : Nat) : Nat := if 65 ≤ n ∧ n ≤ 90 then n + 32 else n

/-- ASCII upper-casing of a code point. -/
def upperN (n : Nat) : Nat := if 97 ≤ n ∧ n ≤ 122 then n - 32 else n

/-- Does a class item match a given code point exactly. -/
def citemMatch (d : Nat) : Citem → Bool
  | .ch ch => d == ch
  | .rng lo hi => decide (lo ≤ d) && decide (d ≤ hi)

/-- Membership of a code point in a class under IGNORECASE: the point or one
of its case variants is listed. -/
def clsElem (items : List Citem) (d : Nat) : Bool :=
  items.any (fun it => citemMatch d it || citemMatch (lowerN d) it || citemMatch (upperN d) it)

/-- Full class match, taking negation into account. -/
def clsMatch (neg : Bool) (items : List Citem) (d : Nat) : Bool :=
  if neg then !(clsElem items d) else clsElem items d

/-- The capture state: named groups bound so far, most recent binding first. -/
abbrev Groups := List (String × List Nat)

/-- Look up the latest binding of a named group. -/
def lookupG (g : Groups) (name : String) : Option (List Nat) :=
  match g with
  | [] => none
  | (n, v) :: t => if n = name then some v else lookupG t name

/-- Case-insensitive list prefix test, for backreferences under IGNORECASE. -/
def isPrefCI (v s : List Nat) : Bool :=
  (v.map lowerN).isPrefixOf (s.map lowerN)

/-- A matching continuation: receives the remaining input and the capture
state, and either produces the final capture state or fails. -/
abbrev Cont := List Nat → Groups → Option Groups

/-- Kleene-star loop of the backtracking matcher.  `body` matches one
iteration.  An iteration must consume input (Python's engine stops repeating
on an empty match; every quantified body in the patterns below always
consumes, so the semantics agree).  The fuel bounds the number of
iterations; it is seeded with one more than the input length, which can
never be exhausted since every iteration strictly shrinks the input. -/
def starC (body : List Nat → Groups → Cont → Option Groups) (lz : Bool) :
    Nat → List Nat → Groups → Cont → Option Groups
  | 0, s, g, k => k s g
  | fuel + 1, s, g, k =>
    let ext := body s g (fun t g' =>
      if t.length < s.length then starC body lz fuel t g' k else none)
    if lz then k s g <|> ext else ext <|> k s g

/-- The backtracking matcher.  `matchC r s g k` tries to match `r` against a
prefix of `s` with capture state `g`, calling `k` on the rest; alternatives
are explored in Python's preference order, so the first success is the match
Python's re module reports. -/
def matchC : Re → List Nat → Groups → Cont → Option Groups
  | .eps, s, g, k => k s g
  | .chr c, s, g, k =>
    match s with
    | [] => none
    | d :: t => if lowerN c == lowerN d then k t g else none
  | .cls neg items, s, g, k =>
    match s with
    | [] => none
    | d :: t => if clsMatch neg items d then k t g else none
  | .any, s, g, k =>
    match s with
    | [] => none
    | d :: t => if d == 10 then none else k t g
  | .seq a b, s, g, k => matchC a s g (fun t g' => matchC b t g' k)
  | .alt a b, s, g, k => matchC a s g k <|> matchC b s g k
  | .star lz r, s, g, k => starC (fun s' g' k' => matchC r s' g' k') lz (s.length + 1) s g k
  | .grp name r, s, g, k =>
    matchC r s g (fun t g' => k t ((name, s.take (s.length - t.length)) :: g'))
  | .bref name, s, g, k =>
    match lookupG g name with
    | none => none
    | some v => if isPrefCI v s then k (s.drop v.length) g else none
  | .look r, s, g, k =>
    match matchC r s g (fun _ g' => some g') with
    | some g' => k s g'
    | none => none
  | .eol, s, g, k =>
    match s with
    | [] => k s g
    | [10] => k s g
    | _ => none

/-- Anchored match against the start of the input (re.match): trailing input
is allowed, the result is the final capture state of the first match. -/
def reMatch (r : Re) (s : List Nat) : Option Groups :=
  matchC r s [] (fun _ g => some g)

/-- The named groups declared in a pattern, i.e. the keys of
m.groupdict() for any match m of that pattern. -/
def declaredNames : Re → List String
  | .eps | .chr _ | .cls _ _ | .any | .bref _ | .eol => []
  | .seq a b => declaredNames a ++ declaredNames b
  | .alt a b => declaredNames a ++ declaredNames b
  | .star _ r => declaredNames r
  | .grp n r => n :: declaredNames r
  | .look r => declaredNames r

/-! ## Pattern construction helpers

The patterns are compiled with re.VERBOSE, so unescaped whitespace outside
character classes is ignored when transliterating; re.IGNORECASE is realised
inside the engine itself. -/

/-- Code points of a Lean string, used to transliterate inputs and pattern
literals. -/
def codes (s : String) : List Nat := s.toList.map Char.toNat

/-- A positive character class listing single characters. -/
def cl (l : List Char) : Re := .cls false (l.map fun ch => .ch ch.toNat)

/-- A negated character class listing single characters. -/
def ncl (l : List Char) : Re := .cls true (l.map fun ch => .ch ch.toNat)

/-- Sequencing of a list of regexes. -/
def cseq : List Re → Re
  | [] => .eps
  | [r] => r
  | r :: rest => .seq r (cseq rest)

/-- Ordered alternation of a non-empty list of regexes (leftmost preferred). -/
def altN : List Re → Re
  | [] => .eps
  | [r] => r
  | r :: rest => .alt r (altN rest)

/-- A literal string (each character matched case-insensitively). -/
def lit (s : String) : Re := cseq (s.toList.map fun ch => .chr ch.toNat)

/-- Greedy option `r?`. -/
def optG (r : Re) : Re := .alt r .eps

/-- Greedy star `r*`. -/
def starG (r : Re) : Re := .star false r

/-- Lazy star `r*?`. -/
def starL (r : Re) : Re := .star true r

/-- Greedy plus `r+`. -/
def plusG (r : Re) : Re := .seq r (starG r)

/-- Lazy plus `r+?`. -/
def plusL (r : Re) : Re := .seq r (starL r)

/-- The class `[0-9]` (also `\d`). -/
def digit : Re := .cls false [.rng 48 57]

/-- The class `[a-zA-Z0-9]`. -/
def alnum : Re := .cls false [.rng 97 122, .rng 65 90, .rng 48 57]

/-- Exact repetition `r{n}`. -/
def repN : Nat → Re → Re
  | 0, _ => .eps
  | 1, r => r
  | n + 1, r => .seq r (repN n r)

/-- Greedy counted repetition `r{2,3}`. -/
def rep23 (r : Re) : Re := .seq r (.seq r (optG r))

/-- Greedy counted repetition `r{2,4}`. -/
def rep24 (r : Re) : Re := .seq r (.seq r (optG (.seq r (optG r))))

/-- The class `[ \._\-]` (equally `[\._ -]`, `[ \._-]`). -/
def sep4 : Re := cl [' ', '.', '_', '-']

/-- The class `[\.\- ]`. -/
def sepDMS : Re := cl ['.', '-', ' ']

/-- The class `[Ss]`. -/
def sS : Re := cl ['S', 's']

/-- The class `[Ee]`. -/
def eE : Re := cl ['E', 'e']

/-- The class `[xX]`. -/
def xX : Re := cl ['x', 'X']

/-- The class `[-_]`. -/
def dashUnd : Re := cl ['-', '_']

/-- The class `[^\/]` (spelled `[^\\/]` in some patterns: the Python string
in the source holds a single backslash, so the regex class is the escaped
slash in both spellings). -/
def noSlash : Re := ncl ['/']

/-- The class `[ ]`. -/
def spc : Re := cl [' ']

/-- The class `[\-+]`. -/
def dashPlus : Re := cl ['-', '+']

/-! ## The series patterns of parse_filename

Transliterations, in source order, of the 24 entries of series_patterns
(trakt_helper.py lines 649-884).  Comments quote the example naming each
pattern in the source. -/

/-- Pattern `[group] Show - 01-02 [crc]`. -/
def sp1 : Re := cseq [
  .chr 91, .grp "group" (plusL .any), .chr 93, optG spc,
  .grp "seriesname" (starL .any), optG spc, dashUnd, optG spc,
  .grp "episodenumberstart" (plusG digit),
  starG (.seq dashUnd (plusG digit)),
  dashUnd, .grp "episodenumberend" (plusG digit),
  optG (.look (cseq [starG .any, .chr 91, .grp "crc" (plusL .any), .chr 93])),
  starG noSlash, .eol]

/-- Pattern `[group] Show - 01 [crc]`. -/
def sp2 : Re := cseq [
  .chr 91, .grp "group" (plusL .any), .chr 93, optG spc,
  .grp "seriesname" (starG .any),
  optG spc, dashUnd, optG spc,
  .grp "episodenumber" (plusG digit),
  optG (.look (cseq [starG .any, .chr 91, .grp "crc" (plusL .any), .chr 93])),
  starG noSlash, .eol]

/-- Pattern `foo s01e23 s01e24 s01e25 *`. -/
def sp3 : Re := cseq [
  optG (.seq (.grp "seriesname" (plusL .any)) sep4),
  sS, .grp "seasonnumber" (plusG digit),
  optG sepDMS,
  eE, .grp "episodenumberstart" (plusG digit),
  starG (cseq [plusG sepDMS, sS, .bref "seasonnumber", optG sepDMS, eE, plusG digit]),
  cseq [plusG sepDMS, sS, .bref "seasonnumber", optG sepDMS, eE,
        .grp "episodenumberend" (plusG digit)],
  starG noSlash, .eol]

/-- Pattern `foo.s01e23e24*`. -/
def sp4 : Re := cseq [
  optG (.seq (.grp "seriesname" (plusL .any)) sep4),
  sS, .grp "seasonnumber" (plusG digit),
  optG sepDMS,
  eE, .grp "episodenumberstart" (plusG digit),
  starG (cseq [optG sepDMS, eE, plusG digit]),
  optG sepDMS, eE, .grp "episodenumberend" (plusG digit),
  starG noSlash, .eol]

/-- Pattern `foo.1x23 1x24 1x25`. -/
def sp5 : Re := cseq [
  optG (.seq (.grp "seriesname" (plusL .any)) sep4),
  .grp "seasonnumber" (plusG digit),
  xX, .grp "episodenumberstart" (plusG digit),
  starG (cseq [plusG sep4, .bref "seasonnumber", xX, plusG digit]),
  cseq [plusG sep4, .bref "seasonnumber", xX, .grp "episodenumberend" (plusG digit)],
  starG noSlash, .eol]

/-- Pattern `foo.1x23x24*`. -/
def sp6 : Re := cseq [
  optG (.seq (.grp "seriesname" (plusL .any)) sep4),
  .grp "seasonnumber" (plusG digit),
  xX, .grp "episodenumberstart" (plusG digit),
  starG (.seq xX (plusG digit)),
  xX, .grp "episodenumberend" (plusG digit),
  starG noSlash, .eol]

/-- Pattern `foo.s01e23-24*`. -/
def sp7 : Re := cseq [
  optG (.seq (.grp "seriesname" (plusL .any)) sep4),
  sS, .grp "seasonnumber" (plusG digit),
  optG sepDMS,
  eE, .grp "episodenumberstart" (plusG digit),
  starG (cseq [cl ['-'], optG eE, plusG digit]),
  cl ['-'], optG eE, .grp "episodenumberend" (plusG digit),
  sepDMS,
  starG noSlash, .eol]

/-- Pattern `foo.1x23-24*`.  Its tail `([\.\-+ ].*|$)` is not end-anchored in
the first branch, which is faithful to re.match semantics. -/
def sp8 : Re := cseq [
  optG (.seq (.grp "seriesname" (plusL .any)) sep4),
  .grp "seasonnumber" (plusG digit),
  xX, .grp "episodenumberstart" (plusG digit),
  starG (.seq dashPlus (plusG digit)),
  dashPlus, .grp "episodenumberend" (plusG digit),
  .alt (.seq (cl ['.', '-', '+', ' ']) (starG .any)) .eol]

/-- Pattern `foo.[1x09-11]*`. -/
def sp9 : Re := cseq [
  .grp "seriesname" (plusL .any), sep4,
  optG (.chr 91),
  .grp "seasonnumber" (plusG digit),
  xX, .grp "episodenumberstart" (plusG digit),
  starG (.seq dashPlus (plusG digit)),
  dashPlus, .grp "episodenumberend" (plusG digit),
  .chr 93,
  starG noSlash, .eol]

/-- Pattern `foo - [012]`. -/
def sp10 : Re := cseq [
  optG (.seq (.grp "seriesname" (plusL .any)) sep4),
  .chr 91, .grp "episodenumber" (plusG digit), .chr 93,
  starG noSlash, .eol]

/-- Pattern `foo.s0101, foo.0201`. -/
def sp11 : Re := cseq [
  .grp "seriesname" (plusL .any), sep4,
  sS, .grp "seasonnumber" (repN 2 digit),
  optG sepDMS,
  .grp "episodenumber" (repN 2 digit),
  starG (.cls true [.rng 48 57]), .eol]

/-- Pattern `foo.1x09*`. -/
def sp12 : Re := cseq [
  optG (.seq (.grp "seriesname" (plusL .any)) sep4),
  optG (.chr 91),
  .grp "seasonnumber" (plusG digit),
  xX, .grp "episodenumber" (plusG digit),
  optG (.chr 93),
  starG noSlash, .eol]

/-- Pattern `foo.s01.e01, foo.s01_e01, "foo.s01 - e01"`. -/
def sp13 : Re := cseq [
  optG (.seq (.grp "seriesname" (plusL .any)) sep4),
  optG (.chr 91),
  sS, .grp "seasonnumber" (plusG digit),
  optG spc, optG sep4, optG spc,
  optG eE, .grp "episodenumber" (plusG digit),
  optG (.chr 93),
  starG noSlash, .eol]

/-- Pattern `foo.2010.01.02.etc`. -/
def sp14 : Re := cseq [
  optG (.seq (.grp "seriesname" (plusL .any)) sep4),
  .grp "year" (repN 4 digit),
  sep4,
  .grp "month" (repN 2 digit),
  sep4,
  .grp "day" (repN 2 digit),
  starG noSlash, .eol]

/-- Pattern `foo - [01.09]`. -/
def sp15 : Re := cseq [
  .grp "seriesname" (plusL .any),
  optG sep4,
  .chr 91,
  .grp "seasonnumber" (plusL digit),
  cl ['.'],
  .grp "episodenumber" (plusL digit),
  .chr 93,
  optG sep4,
  starG noSlash, .eol]

/-- Pattern `Foo - S2 E 02 - etc`. -/
def sp16 : Re := cseq [
  .grp "seriesname" (plusL .any),
  optG spc, sep4, optG spc,
  sS, .grp "seasonnumber" (plusG digit),
  optG sepDMS,
  optG eE, optG spc, .grp "episodenumber" (plusG digit),
  starG noSlash, .eol]

/-- Pattern `Show - Episode 9999 [S 12 - Ep 131] - etc` (has no leading
caret in the source; re.match anchors at the start regardless). -/
def sp17 : Re := cseq [
  .grp "seriesname" (plusG .any),
  spc, .chr 45, spc,
  eE, lit "pisode", spc, plusG digit,
  spc,
  .chr 91,
  sS, optG spc, .grp "seasonnumber" (plusG digit),
  altN [spc, cseq [spc, .chr 45, spc], .chr 45],
  .alt eE (.seq eE (.chr 112)),
  optG spc, .grp "episodenumber" (plusG digit),
  .chr 93,
  starG .any, .eol]

/-- Pattern `show name 2 of 6 - blah`. -/
def sp18 : Re := cseq [
  .grp "seriesname" (plusL .any),
  sep4,
  .grp "episodenumber" (plusG digit),
  lit "of",
  optG sep4,
  plusG digit,
  altN [sep4, .eol, .seq (starG noSlash) .eol]]

/-- Pattern `Show.Name.Part.1.and.Part.2` (the inline `(?i)` flag is
redundant under the global IGNORECASE compilation). -/
def sp19 : Re := cseq [
  .grp "seriesname" (plusL .any),
  sep4,
  optG (.alt (lit "part") (lit "pt")), sep4,
  .grp "episodenumberstart" (plusG digit),
  starG (cseq [sep4, altN [lit "and", .chr 38, lit "to"], sep4,
               optG (.alt (lit "part") (lit "pt")), sep4, plusG digit]),
  sep4, altN [lit "and", .chr 38, lit "to"],
  optG sep4, optG (.alt (lit "part") (lit "pt")),
  sep4, .grp "episodenumberend" (plusG digit),
  sep4, starG noSlash, .eol]

/-- Pattern `Show.Name.Part1`. -/
def sp20 : Re := cseq [
  .grp "seriesname" (plusL .any),
  sep4,
  cl ['P', 'p'], lit "art", spc, .grp "episodenumber" (plusG digit),
  sep4, starG noSlash, .eol]

/-- Pattern `show name Season 01 Episode 20`. -/
def sp21 : Re := cseq [
  .grp "seriesname" (plusL .any), optG spc,
  sS, lit "eason", optG spc, .grp "seasonnumber" (plusG digit), optG spc,
  eE, lit "pisode", optG spc, .grp "episodenumber" (plusG digit),
  starG noSlash, .eol]

/-- Pattern `foo.103*`. -/
def sp22 : Re := cseq [
  .grp "seriesname" (plusG .any), sep4,
  .grp "seasonnumber" digit,
  .grp "episodenumber" (repN 2 digit),
  sep4, starG noSlash, .eol]

/-- Pattern `foo.0103*`. -/
def sp23 : Re := cseq [
  .grp "seriesname" (plusG .any), sep4,
  .grp "seasonnumber" (repN 2 digit),
  .grp "episodenumber" (rep23 digit),
  sep4, starG noSlash, .eol]

/-- Pattern `show.name.e123.abc`. -/
def sp24 : Re := cseq [
  .grp "seriesname" (plusL .any),
  sep4,
  eE, .grp "episodenumber" (plusG digit),
  sep4, starG noSlash, .eol]

/-- The ordered list series_patterns. -/
def seriesPatterns : List Re :=
  [sp1, sp2, sp3, sp4, sp5, sp6, sp7, sp8, sp9, sp10, sp11, sp12,
   sp13, sp14, sp15, sp16, sp17, sp18, sp19, sp20, sp21, sp22, sp23, sp24]

/-! ## The movie patterns of parse_filename

Transliterations of movies_patterns (lines 922-936).  Under re.VERBOSE the
unescaped spaces of `( - )?` and `| cd[0-9]|` are ignored, so those parts
read `(-)?` and `cd[0-9]`. -/

/-- First movie pattern: quality tag or four-digit year required. -/
def mp1 : Re := cseq [
  optG (.alt (cseq [.chr 40, starL .any, .chr 41]) (cseq [.chr 91, starL .any, .chr 93])),
  optG (.chr 45),
  starL spc,
  .grp "moviename" (starL .any),
  altN [lit "dvdrip", lit "xvid", .seq (lit "cd") digit, lit "dvdscr", lit "brrip",
        lit "divx", .seq (optG (cl ['{', '(', '['])) (.grp "year" (repN 4 digit))],
  starG .any, .eol]

/-- Second movie pattern: the generic fallback. -/
def mp2 : Re := cseq [
  optG (.alt (cseq [.chr 40, starL .any, .chr 41]) (cseq [.chr 91, starL .any, .chr 93])),
  optG (.chr 45),
  starL spc,
  .grp "moviename" (plusL .any),
  starL spc,
  optG (cseq [optG (cl ['[', '(']), .grp "year" (repN 4 digit),
              optG (cl [']', ')']), starG .any]),
  optG (.seq (.chr 46) (rep24 alnum)),
  .eol]

/-- The ordered list movies_patterns. -/
def moviePatterns : List Re := [mp1, mp2]

/-! ## cleanRegexedName

The nested helper of parse_filename (lines 637-642).  Its two re.sub calls
match a single dot with a lookahead (respectively lookbehind) that inspects
the original string, so they are implemented as one-pass scans carrying the
original neighbouring characters. -/

/-- The lookahead `(?!.(?:[.]|$))` of the first re.sub, evaluated on the text
following a dot: the dot is kept exactly when the lookahead fails, i.e. when
a non-newline character follows and after it comes a dot or the end of the
string (a trailing newline counting as the end for `$`). -/
def keepDot (rest : List Nat) : Bool :=
  match rest with
  | [] => false
  | x :: rest2 =>
    if x == 10 then false
    else
      match rest2 with
      | [] => true
      | 46 :: _ => true
      | [10] => true
      | _ => false

/-- First substitution: `re.sub("[.](?!.(?:[.]|$))", " ", name)`. -/
def sub1 : List Nat → List Nat
  | [] => []
  | c :: rest => (if c == 46 && !keepDot rest then 32 else c) :: sub1 rest

/-- Does a code point match the class `[^. ]`. -/
def notDotSpace (c : Nat) : Bool := c != 46 && c != 32

/-- Second substitution: `re.sub("(?<=[^. ]{2})[.]", " ", name)`; the
carried pair holds the two previous characters of the input string. -/
def sub2 (p2 p1 : Option Nat) : List Nat → List Nat
  | [] => []
  | c :: rest =>
    let replaced :=
      c == 46 &&
        (match p2, p1 with
         | some a, some b => notDotSpace a && notDotSpace b
         | _, _ => false)
    (if replaced then 32 else c) :: sub2 p1 (some c) rest

/-- Trailing part of cleanRegexedName: `.replace("_", " ").strip("- ")`. -/
def stripDashSpace (l : List Nat) : List Nat :=
  ((l.dropWhile fun c => c == 45 || c == 32).reverse.dropWhile
    fun c => c == 45 || c == 32).reverse

/-- The cleanup routine applied to captured show and movie names. -/
def cleanRegexedName (name : List Nat) : List Nat :=
  stripDashSpace ((sub2 none none (sub1 name)).map fun c => if c == 95 then 32 else c)

/-! ## Building the descriptors -/

/-- The exceptions parse_filename can raise while post-processing a match:
IndexError from m.group on a name the pattern does not declare, TypeError
from applying cleanRegexedName, int or indexing to None. -/
inductive PyErr where
  | indexError
  | typeError
deriving DecidableEq

/-- m.group(name): IndexError when the pattern does not declare the name,
None when the declared group did not participate in the match. -/
def mgroup (pat : Re) (g : Groups) (name : String) : Except PyErr (Option (List Nat)) :=
  if (declaredNames pat).contains name then .ok (lookupG g name) else .error .indexError

/-- Python truthiness of an optional captured string. -/
def truthy : Option (List Nat) → Bool
  | none => false
  | some v => !v.isEmpty

/-- int() applied to a captured digit string. -/
def pyInt (l : List Nat) : Nat := l.foldl (fun a d => a * 10 + (d - 48)) 0

/-- The episode descriptor assembled by the series loop: fields show,
season, episodes of the series dict (lines 893-917; episodes may stay None,
as for the date pattern). -/
structure Series where
  showName : List Nat
  season : Nat
  episodes : Option (List Nat)
deriving DecidableEq

/-- The movie descriptor assembled by the movie loop (lines 945-956). -/
structure MovieDesc where
  title : List Nat
  year : Option (List Nat)
deriving DecidableEq

/-- The found dict of parse_filename; both fields none corresponds to the
False ("unrecognized") return value. -/
structure Parsed where
  episode : Option Series
  movie : Option MovieDesc
deriving DecidableEq

/-- Lines 892-917: build the series dict from the match of a series
pattern (evaluation order show, season, episodes, as in the source). -/
def buildSeries (pat : Re) (g : Groups) : Except PyErr Series := do
  let sn ← mgroup pat g "seriesname"
  let showName ←
    match sn with
    | none => Except.error .typeError
    | some v => pure (cleanRegexedName v)
  let se ← mgroup pat g "seasonnumber"
  let season ←
    match se with
    | none => Except.error .typeError
    | some v => pure (pyInt v)
  let episodes ←
    if (declaredNames pat).contains "episodenumberstart" then do
      let st ← mgroup pat g "episodenumberstart"
      let en ← mgroup pat g "episodenumberend"
      if truthy en then
        match st, en with
        | some sv, some ev =>
          let a := pyInt sv
          let b := pyInt ev
          let p := if a > b then (b, a) else (a, b)
          pure (some (List.range' p.1 (p.2 + 1 - p.1)))
        | none, _ => Except.error .typeError
        | _, none => Except.error .typeError
      else
        match st with
        | none => Except.error .typeError
        | some sv => pure (some [pyInt sv])
    else if (declaredNames pat).contains "episodenumber" then do
      let eo ← mgroup pat g "episodenumber"
      match eo with
      | none => Except.error .typeError
      | some v => pure (some [pyInt v])
    else pure none
  pure ⟨showName, season, episodes⟩

/-- Lines 944-956: build the movie dict from the match of a movie pattern. -/
def buildMovie (pat : Re) (g : Groups) : Except PyErr MovieDesc := do
  let mn ← mgroup pat g "moviename"
  let title ←
    match mn with
    | none => Except.error .typeError
    | some v => pure (cleanRegexedName v)
  let year :=
    if (declaredNames pat).contains "year" && truthy (lookupG g "year") then
      lookupG g "year"
    else none
  pure ⟨title, year⟩

/-- The first pattern of a list matching the input, with its match. -/
def firstMatch : List Re → List Nat → Option (Re × Groups)
  | [], _ => none
  | p :: ps, cs =>
    match reMatch p cs with
    | some g => some (p, g)
    | none => firstMatch ps cs

/-- The series loop of parse_filename (lines 887-920): first matching
pattern wins, then the descriptor is built (which may raise). -/
def seriesStage (cs : List Nat) : Except PyErr (Option Series) :=
  match firstMatch seriesPatterns cs with
  | none => .ok none
  | some (p, g) => (buildSeries p g).map some

/-- The movie loop of parse_filename (lines 939-959), run after the series
loop regardless of its outcome. -/
def movieStage (cs : List Nat) : Except PyErr (Option MovieDesc) :=
  match firstMatch moviePatterns cs with
  | none => .ok none
  | some (p, g) => (buildMovie p g).map some

/-- parse_filename (lines 633-965): run the series loop, then the movie
loop; the result ⟨none, none⟩ is the False ("unrecognized") return. -/
def parse_filename (cs : List Nat) : Except PyErr Parsed := do
  let ep ← seriesStage cs
  let mv ← movieStage cs
  pure ⟨ep, mv⟩

/-! ## The hash resolver search_hash (lines 1013-1126)

The OpenSubtitles and IMDb services are passed in as inputs: `checkHash` is
the outcome of querying the supplied hash (error = the query raised; ok none
= the hash is absent from the response; ok (some l) = the candidate list for
the hash), `ratio` is fuzzywuzzy.fuzz.ratio (an external primitive returning
an integer score in [0,100]), and `getTitle excl id` is
imdbpie get_title with the given exclude_episodes setting.  Candidate
SeriesSeason/SeriesEpisode carry the already int()-converted numbers. -/

/-- A candidate returned by CheckMovieHash2 for the queried hash. -/
structure OsCand where
  MovieKind : String
  SeriesSeason : Nat
  SeriesEpisode : Nat
  MovieName : List Nat
  MovieImdbID : String
deriving DecidableEq

/-- The canonical detail record (the fields of media['base'] that the
orchestrator reads). -/
structure Media where
  titleType : String
  runningTimeInMinutes : Option ℚ
  mediaId : String
  nextEpisode : Option String
deriving DecidableEq

/-- How search_hash can fail: a ResolveException (wrapped service failure,
caught by the orchestrator) or any other uncaught exception
(ValueError/TypeError/IndexError), which crashes the whole invocation. -/
inductive HErr where
  | resolve
  | uncaught
deriving DecidableEq

/-- Line 1038: `media['MovieKind'] not in parsed` — membership of the kind
string among the keys of the parsed dict. -/
def kindInParsed (parsed : Parsed) (kind : String) : Bool :=
  (kind == "episode" && parsed.episode.isSome) ||
    (kind == "movie" && parsed.movie.isSome)

/-- Lines 1068-1070: strip a leading quoted show from a candidate title,
`re.sub('^\"([^\"]*)\" .*$', '\\1', name)`: when the anchored pattern
matches, the whole string is replaced by the quoted part; otherwise the
name is returned unchanged. -/
def dotsToEnd (b : List Nat) : Bool := !(b.dropLast.contains 10)

/-- See dotsToEnd: the quoted-prefix stripping itself. -/
def stripQuotedShow (name : List Nat) : List Nat :=
  match name with
  | 34 :: rest =>
    let a := rest.takeWhile (fun c => c != 34)
    match rest.dropWhile (fun c => c != 34) with
    | 34 :: 32 :: b => if dotsToEnd b then a else name
    | _ => name
  | _ => name

/-- Python max(list, key=f): the first element attaining the maximal key. -/
def argmaxFirst (key : α → Nat) (h : α) (t : List α) : α :=
  t.foldl (fun best m => if key m > key best then m else best) h

/-- Weight of a candidate in the fuzzy episode fallback (lines 1067-1070). -/
def weightEpisode (ratio : List Nat → List Nat → Nat) (ep : Series) (m : OsCand) : Nat :=
  ratio ep.showName (stripQuotedShow m.MovieName)

/-- Fetching the detail record of an accepted candidate (lines 1116-1126 and
1098-1108); a raise is wrapped into a ResolveException. -/
def fetchDetail (getTitle : Bool → String → Except Unit Media) (excl : Bool)
    (id' : String) : Except HErr (Option Media) :=
  match getTitle excl id' with
  | .error _ => .error .resolve
  | .ok r => .ok (some r)

/-- search_hash.  Returns ok none when the stage yields no result, ok (some
m) with the fetched detail record on success. -/
def search_hash (oshash : Option String) (parsed : Parsed)
    (checkHash : Except Unit (Option (List OsCand)))
    (ratio : List Nat → List Nat → Nat)
    (getTitle : Bool → String → Except Unit Media) : Except HErr (Option Media) :=
  match oshash with
  | none => .ok none
  | some _ =>
    match checkHash with
    | .error _ => .error .resolve
    | .ok none => .ok none
    | .ok (some medias) =>
      match medias with
      | [media] =>
        -- lines 1033-1039: a single candidate is accepted unless its kind
        -- is not a key of the parsed dict
        if kindInParsed parsed media.MovieKind then
          fetchDetail getTitle (media.MovieKind == "movie") media.MovieImdbID
        else .ok none
      | _ =>
        -- lines 1040-1108: several (or zero) candidates
        let mediaEp : Except HErr (Option OsCand) :=
          match parsed.episode with
          | none => .ok none
          | some ep =>
            match ep.episodes with
            | none => .error .uncaught        -- episode['episodes'][0] on None
            | some [] => .error .uncaught     -- [0] on an empty list
            | some (e0 :: _) =>
              let pfx := 34 :: (ep.showName.map lowerN) ++ [34]
              match medias.find? (fun m =>
                  m.MovieKind == "episode" && m.SeriesSeason == ep.season &&
                  m.SeriesEpisode == e0 &&
                  pfx.isPrefixOf (m.MovieName.map lowerN)) with
              | some m => .ok (some m)
              | none =>
                let pool := medias.filter (fun m =>
                  m.MovieKind == "episode" && m.SeriesSeason == ep.season &&
                  m.SeriesEpisode == e0)
                match pool with
                | [] => .error .uncaught      -- max() of an empty sequence
                | p :: ps =>
                  let closest := argmaxFirst (weightEpisode ratio ep) p ps
                  -- line 1083: the 0-100 integer score is compared with .8
                  if ((weightEpisode ratio ep closest : ℚ) ≥ 4 / 5) then .ok (some closest)
                  else .ok none
        match mediaEp with
        | .error e => .error e
        | .ok (some m) => fetchDetail getTitle (m.MovieKind == "movie") m.MovieImdbID
        | .ok none =>
          match parsed.movie with
          | some mov =>
            match medias with
            | [] => .error .uncaught          -- max() of an empty sequence
            | p :: ps =>
              let closest := argmaxFirst (fun m => ratio mov.title m.MovieName) p ps
              fetchDetail getTitle true closest.MovieImdbID
          | none => .ok none

/-! ## The movie text resolver search_text_movie (lines 1130-1200) -/

/-- A result of imdb.search_for_title. -/
structure SearchR where
  title : List Nat
  year : Option (List Nat)
  imdbId : String
deriving DecidableEq

/-- A search result annotated with its fuzz_ratio (lines 1149-1151). -/
structure ScoredR where
  title : List Nat
  year : Option (List Nat)
  imdbId : String
  fuzzRatio : Nat
deriving DecidableEq

/-- Annotate every result with the fuzzy score of its title against the
descriptor title. -/
def annotate (ratio : List Nat → List Nat → Nat) (movieTitle : List Nat)
    (rs : List SearchR) : List ScoredR :=
  rs.map fun r => ⟨r.title, r.year, r.imdbId, ratio movieTitle r.title⟩

/-- Lines 1148-1155: was some result's year equal to the (truthy)
descriptor year. -/
def yearFound (movie : MovieDesc) (rs : List ScoredR) : Bool :=
  truthy movie.year && rs.any (fun r => r.year == movie.year)

/-- Lines 1157-1158: the possibly year-restricted result set. -/
def yearRestrict (movie : MovieDesc) (rs : List ScoredR) : List ScoredR :=
  if yearFound movie rs then rs.filter (fun r => r.year == movie.year) else rs

/-- Line 1172: the arithmetic mean of the scores. -/
def meanQ (rs : List ScoredR) : ℚ :=
  (rs.map fun r => (r.fuzzRatio : ℚ)).sum / (rs.length : ℚ)

/-- Lines 1173-1178: the population variance of the scores (the source
takes math.sqrt of this and never uses the standard deviation otherwise). -/
def varQ (rs : List ScoredR) : ℚ :=
  (rs.map fun r => ((r.fuzzRatio : ℚ) - meanQ rs) ^ 2).sum / (rs.length : ℚ)

/-- Line 1182: `r['fuzz_ratio'] >= mean + sqrt(var)`.  Written without a
square root so that it is decidable over ℚ: for f ≥ mean this inequality is
equivalent to (f - mean)² ≥ var, which is proved (and used) in the theorem
for claim C4 below. -/
def surviveB (rs : List ScoredR) (f : Nat) : Bool :=
  decide (meanQ rs ≤ (f : ℚ) ∧ varQ rs ≤ ((f : ℚ) - meanQ rs) ^ 2)

/-- Lines 1180-1182: the survivor filter of the duration branch. -/
def statFilter (rs : List ScoredR) : List ScoredR :=
  rs.filter fun r => surviveB rs r.fuzzRatio

/-- A survivor with its fetched detail record (line 1186). -/
structure DetR where
  entry : ScoredR
  details : Media
deriving DecidableEq

/-- sys.maxint of 64-bit CPython 2, the sentinel for a missing runtime. -/
def sysMaxint : ℚ := 2 ^ 63 - 1

/-- Lines 1191-1196: the sort key of the duration-based selection. -/
def pyKey (duration : ℚ) (m : Media) : ℚ :=
  match m.runningTimeInMinutes with
  | some rt => |rt * 60 - duration|
  | none => sysMaxint

/-- Python min(list, key=f): the first element attaining the minimal key. -/
def argminFirst (key : α → ℚ) (h : α) (t : List α) : α :=
  t.foldl (fun best m => if key m < key best then m else best) h

/-- How search_text_movie fails: wrapped ResolveException (caught by
search_text) or an uncaught raise from an unwrapped get_title call. -/
inductive TErr where
  | resolve
  | uncaught
deriving DecidableEq

/-- What the movie strategy returns on success: the chosen detail record,
together with its fuzz ratio when the source returns a triple (duration
branch) and none when it returns a pair (no-duration branch). -/
structure TextSel where
  details : Media
  fuzzRatio : Option Nat
deriving DecidableEq

/-- Python truthiness of the optional duration (None and 0 are falsy). -/
def durTruthy : Option ℚ → Bool
  | none => false
  | some q => !(q == 0)

/-- search_text_movie.  `searchRes` is imdb.search_for_title of the movie
title (error = the search raised); `getTitle` is imdb.get_title by imdb id. -/
def search_text_movie (movie : MovieDesc) (duration : Option ℚ)
    (searchRes : Except Unit (List SearchR))
    (ratio : List Nat → List Nat → Nat)
    (getTitle : String → Except Unit Media) : Except TErr (Option TextSel) :=
  match searchRes with
  | .error _ => .error .resolve
  | .ok [] => .ok none
  | .ok (s0 :: srest) =>
    let search1 := yearRestrict movie (annotate ratio movie.title (s0 :: srest))
    if durTruthy duration then
      match duration with
      | none => .error .uncaught          -- unreachable: durTruthy none = false
      | some d =>
        let surv := statFilter search1
        match surv.mapM (fun r => (getTitle r.imdbId).map fun dt => DetR.mk r dt) with
        | .error _ => .error .uncaught    -- line 1186 get_title is not wrapped
        | .ok [] => .error .uncaught      -- min() of an empty sequence
        | .ok (d0 :: drest) =>
          let closest := argminFirst (fun x => pyKey d x.details) d0 drest
          .ok (some ⟨closest.details, some closest.entry.fuzzRatio⟩)
    else
      match search1 with
      | [] => .error .uncaught            -- max() of an empty sequence
      | r0 :: rrest =>
        let maxR := ((r0 :: rrest).map fun r => r.fuzzRatio).foldl max 0
        match (r0 :: rrest).filter (fun r => r.fuzzRatio == maxR) with
        | [] => .error .uncaught          -- cannot happen: the maximum is attained
        | c :: _ =>
          match getTitle c.imdbId with
          | .error _ => .error .uncaught  -- line 1167 get_title is not wrapped
          | .ok dt => .ok (some ⟨dt, none⟩)

/-! ## The orchestrator action_resolve (lines 1358-1417)

The stages are passed in as inputs: `hashStage` is the outcome of
search_hash(), `textStage` the outcome of search_text() (error = an
uncaught raise inside the text stage; the TextR constructors mirror the
pair/triple returns whose length line 1385 inspects), `gtExp` the
imdb.get_title used by the multi-episode expansion loop. -/

/-- A successful text resolution: pair (imdb, media) or triple
(imdb, media, ratio). -/
inductive TextR where
  | pair (m : Media)
  | triple (m : Media) (r : Nat)
deriving DecidableEq

/-- The media record of a text resolution (media[1] of the tuple). -/
def textMedia : TextR → Media
  | .pair m => m
  | .triple m _ => m

/-- Line 1385: media[2] if len(media) > 2 else 0. -/
def textRatio : TextR → Nat
  | .pair _ => 0
  | .triple _ r => r

/-- The observable outcome of one action_resolve invocation: the printed
media list and whether the InsertMovieHash API call was reached. -/
structure PipeOut where
  medias : List Media
  inserted : Bool
deriving DecidableEq

/-- crash = an exception escaped action_resolve. -/
inductive PipeResult where
  | crash
  | out (o : PipeOut)
deriving DecidableEq

/-- Line 1410: `media['base']['nextEpisode'][7:-1]`. -/
def sliceId (s : String) : String := String.mk ((s.toList.drop 7).dropLast)

/-- Lines 1407-1411: the multi-episode expansion loop; the counter is the
number of episodes still to fetch. -/
def expandLoop (gt : String → Except Unit Media) :
    Nat → Media → List Media → Except Unit (List Media)
  | 0, _, acc => .ok acc
  | k + 1, last, acc =>
    match last.nextEpisode with
    | none => .error ()                   -- None[7:-1]: TypeError
    | some ref =>
      match gt (sliceId ref) with
      | .error _ => .error ()             -- line 1410 get_title is not wrapped
      | .ok m => expandLoop gt k m (acc ++ [m])

/-- Lines 1404-1411: assemble the final media list, running the
multi-episode expansion when the resolved record is an episode and more
than one episode was requested; `inserted` is carried into the observable
outcome. -/
def resolve_tail (parsed : Parsed) (gtExp : String → Except Unit Media)
    (m : Media) (ptype : String) (inserted : Bool) : PipeResult :=
  if ptype == "episode" then
    match parsed.episode with
    | none => .crash                  -- parsed['episode']: KeyError
    | some ep =>
      match ep.episodes with
      | none => .crash                -- len(None): TypeError
      | some eps =>
        if eps.length > 1 then
          match expandLoop gtExp (eps.length - 1) m [m] with
          | .error _ => .crash
          | .ok l => .out ⟨l, inserted⟩
        else .out ⟨[m], inserted⟩
  else .out ⟨[m], inserted⟩

/-- The logic of action_resolve after parsing (lines 1358-1417).  The hash
insertion payload (hash, size, id, duration) is immaterial to the control
flow and is not modelled; `inserted` records whether the InsertMovieHash
call was reached. -/
def resolve_pipeline (parsed : Parsed) (oshash : Option String)
    (duration : Option ℚ)
    (hashStage : Except HErr (Option Media))
    (textStage : Except Unit (Option TextR))
    (gtExp : String → Except Unit Media) : PipeResult :=
  -- lines 1362-1376: hash first; a ResolveException is caught and the text
  -- stage is tried, any other exception escapes
  let step : Except Unit (Option TextR × Bool) :=
    match hashStage with
    | .error .uncaught => .error ()
    | .error .resolve => textStage.map fun t => (t, true)
    | .ok none => textStage.map fun t => (t, true)
    | .ok (some m) => .ok (some (.pair m), false)
  match step with
  | .error _ => .crash
  | .ok (none, _) => .out ⟨[], false⟩     -- lines 1379-1381: print('[]')
  | .ok (some tr, shouldInsert) =>
    -- line 1385: ratio = media[2] if len(media) > 2 else 0
    let ratio : Nat := textRatio tr
    let m := textMedia tr
    -- lines 1388-1391
    let ptype : String := if m.titleType == "tvEpisode" then "episode" else "movie"
    -- lines 1396-1401 with insert_hash (lines 1301-1343): a ResolveException
    -- from the API call is caught; the TypeError of None * 60. when neither
    -- a duration nor a declared runtime exists is not
    let insertRes : Except Unit Bool :=
      if oshash.isSome && shouldInsert then
        if ptype == "movie" && ratio < 70 then .ok false
        else
          match durTruthy duration, m.runningTimeInMinutes with
          | true, _ => .ok true
          | false, some _ => .ok true
          | false, none => .error ()
      else .ok false
    match insertRes with
    | .error _ => .crash
    | .ok inserted => resolve_tail parsed gtExp m ptype inserted

/-! ## Shared helper lemmas -/

/-- Does a parse outcome carry an Episode descriptor. -/
def hasEpisodeDesc (r : Except PyErr Parsed) : Bool :=
  match r with
  | .ok p => p.episode.isSome
  | .error _ => false

/-- Does a parse outcome carry a Movie descriptor. -/
def hasMovieDesc (r : Except PyErr Parsed) : Bool :=
  match r with
  | .ok p => p.movie.isSome
  | .error _ => false

theorem parse_inv {cs : List Nat} {p : Parsed} (h : parse_filename cs = .ok p) :
    seriesStage cs = .ok p.episode ∧ movieStage cs = .ok p.movie := by
  unfold parse_filename at h
  cases hs : seriesStage cs with
  | error e => rw [hs] at h; simp [Bind.bind, Except.bind] at h
  | ok ep =>
    rw [hs] at h
    cases hm : movieStage cs with
    | error e => rw [hm] at h; simp [Bind.bind, Except.bind] at h
    | ok mv =>
      rw [hm] at h
      simp only [Bind.bind, Except.bind, pure, Except.pure, Except.ok.injEq] at h
      subst h
      exact ⟨rfl, rfl⟩

theorem sorted_range' (s n : Nat) : List.Sorted (· < ·) (List.range' s n) := by
  rw [List.Sorted]
  exact List.pairwise_lt_range' s n

/-! ## Claim C1 -/

/-- C1 counterexample: for the filename "Show.Name.S01E02.Group.mkv" an
episode pattern matches, and yet the movie pattern list is still evaluated
and also populates a Movie descriptor, so parse_filename returns both an
Episode and a Movie descriptor at once, contradicting the claim that movie
patterns are tried only when no episode pattern matched. -/
theorem c1_counterexample :
    hasEpisodeDesc (parse_filename (codes "Show.Name.S01E02.Group.mkv")) = true ∧
    hasMovieDesc (parse_filename (codes "Show.Name.S01E02.Group.mkv")) = true := by
  exact ⟨by rfl, by rfl⟩

/-- C1 (amended): the two pattern cascades are evaluated independently — the
series loop first (first structural match wins inside it), then the movie
loop regardless of whether an episode pattern matched — so the returned
value decomposes into the two stage outcomes and may populate both
variants; each variant is populated exactly when its own pattern list has a
match. -/
theorem c1_stages_independent :
    ∀ (cs : List Nat) (p : Parsed), parse_filename cs = .ok p →
      (seriesStage cs = .ok p.episode ∧ movieStage cs = .ok p.movie) ∧
      (firstMatch seriesPatterns cs = none → p.episode = none) ∧
      (firstMatch moviePatterns cs = none → p.movie = none) := by
  intro cs p h
  obtain ⟨hs, hm⟩ := parse_inv h
  refine ⟨⟨hs, hm⟩, ?_, ?_⟩
  · intro hn
    have h2 : (Except.ok none : Except PyErr (Option Series)) = .ok p.episode := by
      rw [← hs]; unfold seriesStage; rw [hn]
    simpa using h2.symm
  · intro hn
    have h2 : (Except.ok none : Except PyErr (Option MovieDesc)) = .ok p.movie := by
      rw [← hm]; unfold movieStage; rw [hn]
    simpa using h2.symm

/-- Witness for c1_stages_independent at the counterexample filename. -/
theorem c1_witness :
    (seriesStage (codes "Show.Name.S01E02.Group.mkv") =
        .ok (some ⟨codes "Show Name", 1, some [2]⟩) ∧
      movieStage (codes "Show.Name.S01E02.Group.mkv") =
        .ok (some ⟨codes "Show Name S01E02 Group", none⟩)) ∧
    (firstMatch seriesPatterns (codes "Show.Name.S01E02.Group.mkv") = none →
      (some (Series.mk (codes "Show Name") 1 (some [2]))) = none) ∧
    (firstMatch moviePatterns (codes "Show.Name.S01E02.Group.mkv") = none →
      (some (MovieDesc.mk (codes "Show Name S01E02 Group") none)) = none) :=
  c1_stages_independent (codes "Show.Name.S01E02.Group.mkv")
    ⟨some ⟨codes "Show Name", 1, some [2]⟩,
     some ⟨codes "Show Name S01E02 Group", none⟩⟩ (by rfl)

/-! ## Claim C7 -/

/-- C7: whenever the series loop is building a descriptor from a match that
captured both an episode range start and end, the two bounds are swapped
when out of order, and the emitted episodes field is the full ascending
contiguous sequence from the smaller to the larger bound inclusive; in
particular parsing "Show.S01E05-E03.mkv" emits episodes [3, 4, 5]. -/
theorem c7_episode_range_normalized :
    (∀ (pat : Re) (g : Groups) (sv ev : List Nat) (desc : Series),
      lookupG g "episodenumberstart" = some sv →
      lookupG g "episodenumberend" = some ev → ev ≠ [] →
      (declaredNames pat).contains "episodenumberstart" = true →
      buildSeries pat g = .ok desc →
      ∃ l, desc.episodes = some l ∧ List.Sorted (· < ·) l ∧
        ∀ i, i ∈ l ↔ (min (pyInt sv) (pyInt ev) ≤ i ∧ i ≤ max (pyInt sv) (pyInt ev))) ∧
    parse_filename (codes "Show.S01E05-E03.mkv") =
      .ok ⟨some ⟨codes "Show", 1, some [3, 4, 5]⟩,
           some ⟨codes "Show S01E05-E03", none⟩⟩ := by
  constructor
  · intro pat g sv ev desc hsv hev hevne hdecl hbuild
    have hst : mgroup pat g "episodenumberstart" = .ok (some sv) := by
      unfold mgroup; rw [if_pos hdecl, hsv]
    have hdecl2 : "episodenumberstart" ∈ declaredNames pat := by simpa using hdecl
    have htr : truthy (some ev) = true := by
      unfold truthy
      simp [List.isEmpty_iff, hevne]
    cases hsn : mgroup pat g "seriesname" with
    | error e => simp [buildSeries, hsn, Bind.bind, Except.bind, pure, Except.pure] at hbuild
    | ok sno =>
      cases sno with
      | none => simp [buildSeries, hsn, Bind.bind, Except.bind, pure, Except.pure] at hbuild
      | some sname =>
        cases hse : mgroup pat g "seasonnumber" with
        | error e => simp [buildSeries, hsn, hse, Bind.bind, Except.bind, pure, Except.pure] at hbuild
        | ok seo =>
          cases seo with
          | none => simp [buildSeries, hsn, hse, Bind.bind, Except.bind, pure, Except.pure] at hbuild
          | some sea =>
            cases hend : mgroup pat g "episodenumberend" with
            | error e =>
              simp [buildSeries, hsn, hse, hdecl2, hst, hend, Bind.bind, Except.bind, pure, Except.pure] at hbuild
            | ok eno =>
              have heno : eno = some ev := by
                have h2 : (Except.ok (lookupG g "episodenumberend") :
                    Except PyErr (Option (List Nat))) = .ok eno ∨
                    (Except.error PyErr.indexError :
                    Except PyErr (Option (List Nat))) = .ok eno := by
                  unfold mgroup at hend
                  by_cases hd : ((declaredNames pat).contains "episodenumberend" = true)
                  · left; rw [← hend, if_pos hd]
                  · right; rw [← hend, if_neg hd]
                cases h2 with
                | inl h3 => rw [hev] at h3; exact ((Except.ok.injEq _ _).mp h3.symm)
                | inr h3 => cases h3
              subst heno
              simp only [buildSeries, hsn, hse, hdecl, hdecl2, hst, hend, htr, Bind.bind,
                Except.bind, pure, Except.pure, if_pos, if_true, Except.ok.injEq] at hbuild
              rw [← hbuild]
              by_cases hab : pyInt sv > pyInt ev
              · refine ⟨List.range' (pyInt ev) (pyInt sv + 1 - pyInt ev),
                  by simp [if_pos hab], sorted_range' _ _, ?_⟩
                intro i
                rw [List.mem_range'_1]
                omega
              · refine ⟨List.range' (pyInt sv) (pyInt ev + 1 - pyInt sv),
                  by simp [if_neg hab], sorted_range' _ _, ?_⟩
                intro i
                rw [List.mem_range'_1]
                omega
  · rfl

/-! ## Derivability and completeness of the matcher

For the universally quantified part of claim C9 we need that the generic
movie fallback pattern mp2 matches every non-empty input without newlines.
`Deriv r s v` is a big-step derivability relation for the backreference- and
lookahead-free fragment of the regex language: r can consume the input s
down to the leftover v.  The backtracking engine is complete for it:
whenever a derivation exists and the continuation accepts the leftover, the
engine succeeds (possibly through a different, higher-priority branch). -/

inductive Deriv : Re → List Nat → List Nat → Prop where
  | eps {s} : Deriv .eps s s
  | chr {c d t} : lowerN c = lowerN d → Deriv (.chr c) (d :: t) t
  | cls {neg items d t} : clsMatch neg items d = true → Deriv (.cls neg items) (d :: t) t
  | any {d t} : d ≠ 10 → Deriv .any (d :: t) t
  | seq {a b s t v} : Deriv a s t → Deriv b t v → Deriv (.seq a b) s v
  | altL {a b s v} : Deriv a s v → Deriv (.alt a b) s v
  | altR {a b s v} : Deriv b s v → Deriv (.alt a b) s v
  | starNil {lz r s} : Deriv (.star lz r) s s
  | starCons {lz r s t v} : Deriv r s t → t.length < s.length →
      Deriv (.star lz r) t v → Deriv (.star lz r) s v
  | grp {n r s v} : Deriv r s v → Deriv (.grp n r) s v
  | eolNil : Deriv .eol [] []
  | eolNl : Deriv .eol [10] [10]

theorem isSome_orElse {α} (a b : Option α) :
    (a <|> b).isSome = (a.isSome || b.isSome) := by
  cases a <;> rfl

/-- One-step unfolding of the star loop. -/
theorem starC_succ (body : List Nat → Groups → Cont → Option Groups)
    (lz : Bool) (n : Nat) (s : List Nat) (g : Groups) (k : Cont) :
    starC body lz (n + 1) s g k =
      (let ext := body s g (fun t g' =>
        if t.length < s.length then starC body lz n t g' k else none)
      if lz then k s g <|> ext else ext <|> k s g) := rfl

/-- Pointwise success ordering of continuations. -/
def ContLe (k1 k2 : Cont) : Prop :=
  ∀ t g, (k1 t g).isSome = true → (k2 t g).isSome = true

/-- Success of the star loop is monotone in the continuation (given that the
body is). -/
theorem starC_mono (body : List Nat → Groups → Cont → Option Groups)
    (hbody : ∀ k1 k2, ContLe k1 k2 → ∀ s g,
      (body s g k1).isSome = true → (body s g k2).isSome = true)
    (lz : Bool) :
    ∀ fuel k1 k2, ContLe k1 k2 → ∀ s g,
      (starC body lz fuel s g k1).isSome = true →
      (starC body lz fuel s g k2).isSome = true := by
  intro fuel
  induction fuel with
  | zero => intro k1 k2 hk s g h; exact hk s g h
  | succ n ih =>
    intro k1 k2 hk s g h
    rw [starC_succ] at h ⊢
    have hK : ContLe
        (fun t g' => if t.length < s.length then starC body lz n t g' k1 else none)
        (fun t g' => if t.length < s.length then starC body lz n t g' k2 else none) := by
      intro t g' hsome
      dsimp only at hsome ⊢
      by_cases hlt : t.length < s.length
      · rw [if_pos hlt] at hsome ⊢
        exact ih k1 k2 hk t g' hsome
      · rw [if_neg hlt] at hsome; cases hsome
    cases lz with
    | false =>
      rw [if_neg (by decide)] at h ⊢
      rw [isSome_orElse] at h ⊢
      rcases Bool.or_eq_true_iff.mp h with h1 | h1
      · exact Bool.or_eq_true_iff.mpr (Or.inl (hbody _ _ hK s g h1))
      · exact Bool.or_eq_true_iff.mpr (Or.inr (hk s g h1))
    | true =>
      rw [if_pos rfl] at h ⊢
      rw [isSome_orElse] at h ⊢
      rcases Bool.or_eq_true_iff.mp h with h1 | h1
      · exact Bool.or_eq_true_iff.mpr (Or.inl (hk s g h1))
      · exact Bool.or_eq_true_iff.mpr (Or.inr (hbody _ _ hK s g h1))

/-- Success of the matcher is monotone in the continuation. -/
theorem matchC_mono : ∀ (r : Re) (k1 k2 : Cont), ContLe k1 k2 → ∀ s g,
    (matchC r s g k1).isSome = true → (matchC r s g k2).isSome = true := by
  intro r
  induction r with
  | eps => intro k1 k2 hk s g h; exact hk s g h
  | chr c =>
    intro k1 k2 hk s g h
    cases s with
    | nil => simp [matchC] at h
    | cons d t =>
      simp only [matchC] at h ⊢
      by_cases hc : (lowerN c == lowerN d) = true
      · rw [if_pos hc] at h ⊢; exact hk t g h
      · rw [if_neg hc] at h; cases h
  | cls neg items =>
    intro k1 k2 hk s g h
    cases s with
    | nil => simp [matchC] at h
    | cons d t =>
      simp only [matchC] at h ⊢
      by_cases hc : clsMatch neg items d = true
      · rw [if_pos hc] at h ⊢; exact hk t g h
      · rw [if_neg hc] at h; cases h
  | any =>
    intro k1 k2 hk s g h
    cases s with
    | nil => simp [matchC] at h
    | cons d t =>
      simp only [matchC] at h ⊢
      by_cases hc : (d == 10) = true
      · rw [if_pos hc] at h; cases h
      · rw [if_neg hc] at h ⊢; exact hk t g h
  | seq a b iha ihb =>
    intro k1 k2 hk s g h
    simp only [matchC] at h ⊢
    exact iha _ _ (fun t g' => ihb k1 k2 hk t g') s g h
  | alt a b iha ihb =>
    intro k1 k2 hk s g h
    simp only [matchC] at h ⊢
    rw [isSome_orElse] at h ⊢
    rcases Bool.or_eq_true_iff.mp h with h1 | h1
    · exact Bool.or_eq_true_iff.mpr (Or.inl (iha k1 k2 hk s g h1))
    · exact Bool.or_eq_true_iff.mpr (Or.inr (ihb k1 k2 hk s g h1))
  | star lz r ih =>
    intro k1 k2 hk s g h
    exact starC_mono _ (fun ka kb hab s' g' => ih ka kb hab s' g') lz (s.length + 1)
      k1 k2 hk s g h
  | grp n r ih =>
    intro k1 k2 hk s g h
    simp only [matchC] at h ⊢
    exact ih _ _ (fun t g' => hk t _) s g h
  | bref name =>
    intro k1 k2 hk s g h
    simp only [matchC] at h ⊢
    split at h
    next heq => cases h
    next v heq =>
      by_cases hc : isPrefCI v s = true
      · rw [if_pos hc] at h ⊢; exact hk _ g h
      · rw [if_neg hc] at h; cases h
  | look r ih =>
    intro k1 k2 hk s g h
    simp only [matchC] at h ⊢
    split at h
    next g' heq => exact hk s g' h
    next heq => cases h
  | eol =>
    intro k1 k2 hk s g h
    simp only [matchC] at h ⊢
    split at h
    · exact hk _ g h
    · exact hk _ g h
    · cases h

/-- Success of the star loop survives one more unit of fuel. -/
theorem starC_le_fuel (body : List Nat → Groups → Cont → Option Groups)
    (hbody : ∀ k1 k2, ContLe k1 k2 → ∀ s g,
      (body s g k1).isSome = true → (body s g k2).isSome = true)
    (lz : Bool) :
    ∀ n s g k, (starC body lz n s g k).isSome = true →
      (starC body lz (n + 1) s g k).isSome = true := by
  intro n
  induction n with
  | zero =>
    intro s g k h
    rw [starC_succ]
    cases lz with
    | false =>
      rw [if_neg (by decide), isSome_orElse]
      exact Bool.or_eq_true_iff.mpr (Or.inr h)
    | true =>
      rw [if_pos rfl, isSome_orElse]
      exact Bool.or_eq_true_iff.mpr (Or.inl h)
  | succ m ih =>
    intro s g k h
    rw [starC_succ] at h ⊢
    have hK : ContLe
        (fun t g' => if t.length < s.length then starC body lz m t g' k else none)
        (fun t g' => if t.length < s.length then starC body lz (m + 1) t g' k else none) := by
      intro t g' hsome
      dsimp only at hsome ⊢
      by_cases hlt : t.length < s.length
      · rw [if_pos hlt] at hsome ⊢
        exact ih t g' k hsome
      · rw [if_neg hlt] at hsome; cases hsome
    cases lz with
    | false =>
      rw [if_neg (by decide)] at h ⊢
      rw [isSome_orElse] at h ⊢
      rcases Bool.or_eq_true_iff.mp h with h1 | h1
      · exact Bool.or_eq_true_iff.mpr (Or.inl (hbody _ _ hK s g h1))
      · exact Bool.or_eq_true_iff.mpr (Or.inr h1)
    | true =>
      rw [if_pos rfl] at h ⊢
      rw [isSome_orElse] at h ⊢
      rcases Bool.or_eq_true_iff.mp h with h1 | h1
      · exact Bool.or_eq_true_iff.mpr (Or.inl h1)
      · exact Bool.or_eq_true_iff.mpr (Or.inr (hbody _ _ hK s g h1))

/-- Success of the star loop is monotone in the fuel. -/
theorem starC_fuel_mono (body : List Nat → Groups → Cont → Option Groups)
    (hbody : ∀ k1 k2, ContLe k1 k2 → ∀ s g,
      (body s g k1).isSome = true → (body s g k2).isSome = true)
    (lz : Bool) {n n' : Nat} (hle : n ≤ n') :
    ∀ s g k, (starC body lz n s g k).isSome = true →
      (starC body lz n' s g k).isSome = true := by
  induction hle with
  | refl => exact fun s g k h => h
  | step h2 ih =>
    intro s g k h
    exact starC_le_fuel body hbody lz _ s g k (ih s g k h)

/-- Completeness of the backtracking matcher: if a derivation consumes s
down to v and the continuation accepts v under any capture state, the
matcher succeeds. -/
theorem matchC_complete {r : Re} {s v : List Nat} (hd : Deriv r s v) :
    ∀ (g : Groups) (k : Cont), (∀ g', (k v g').isSome = true) →
      (matchC r s g k).isSome = true := by
  induction hd with
  | eps =>
    intro g k hk
    exact hk g
  | chr hc =>
    intro g k hk
    simp only [matchC]
    rw [if_pos (by simp [hc])]
    exact hk g
  | cls hc =>
    intro g k hk
    simp only [matchC]
    rw [if_pos hc]
    exact hk g
  | any h10 =>
    intro g k hk
    simp only [matchC]
    rw [if_neg (by simp [h10])]
    exact hk g
  | seq hda hdb iha ihb =>
    intro g k hk
    simp only [matchC]
    exact iha g _ (fun g' => ihb g' k hk)
  | altL hda iha =>
    intro g k hk
    simp only [matchC]
    rw [isSome_orElse]
    exact Bool.or_eq_true_iff.mpr (Or.inl (iha g k hk))
  | altR hdb ihb =>
    intro g k hk
    simp only [matchC]
    rw [isSome_orElse]
    exact Bool.or_eq_true_iff.mpr (Or.inr (ihb g k hk))
  | @starNil lz r s =>
    intro g k hk
    show (starC (fun s' g' k' => matchC r s' g' k') lz (s.length + 1) s g k).isSome = true
    rw [starC_succ]
    cases lz with
    | false =>
      rw [if_neg (by decide), isSome_orElse]
      exact Bool.or_eq_true_iff.mpr (Or.inr (hk g))
    | true =>
      rw [if_pos rfl, isSome_orElse]
      exact Bool.or_eq_true_iff.mpr (Or.inl (hk g))
  | @starCons lz r s t w hd1 hlt hd2 ih1 ih2 =>
    intro g k hk
    show (starC (fun s' g' k' => matchC r s' g' k') lz (s.length + 1) s g k).isSome = true
    have hbody : ∀ k1 k2, ContLe k1 k2 → ∀ s' g',
        (matchC r s' g' k1).isSome = true → (matchC r s' g' k2).isSome = true :=
      fun k1 k2 h12 s' g' => matchC_mono r k1 k2 h12 s' g'
    have hext : (matchC r s g (fun t' g' =>
        if t'.length < s.length then
          starC (fun s' g' k' => matchC r s' g' k') lz s.length t' g' k
        else none)).isSome = true := by
      apply ih1 g
      intro g'
      dsimp only
      rw [if_pos hlt]
      have h2 : (starC (fun s' g' k' => matchC r s' g' k') lz (t.length + 1)
          t g' k).isSome = true := ih2 g' k hk
      exact starC_fuel_mono _ hbody lz (by omega) t g' k h2
    rw [starC_succ]
    cases lz with
    | false =>
      rw [if_neg (by decide), isSome_orElse]
      exact Bool.or_eq_true_iff.mpr (Or.inl hext)
    | true =>
      rw [if_pos rfl, isSome_orElse]
      exact Bool.or_eq_true_iff.mpr (Or.inr hext)
  | grp hd1 ih =>
    intro g k hk
    simp only [matchC]
    exact ih g _ (fun g' => hk _)
  | eolNil =>
    intro g k hk
    exact hk g
  | eolNl =>
    intro g k hk
    exact hk g

/-- A lazy or greedy star of the dot consumes any newline-free input. -/
theorem deriv_star_any (lz : Bool) : ∀ l : List Nat, (∀ c ∈ l, c ≠ 10) →
    Deriv (.star lz .any) l [] := by
  intro l
  induction l with
  | nil => intro _; exact .starNil
  | cons c t ih =>
    intro h
    exact .starCons (.any (h c (by simp))) (by simp)
      (ih fun c' hc' => h c' (by simp [hc']))

/-- The generic fallback movie pattern derives every non-empty newline-free
input: all optional parts match empty, moviename takes the whole string. -/
theorem deriv_mp2 {cs : List Nat} (hne : cs ≠ []) (hnl : ∀ c ∈ cs, c ≠ 10) :
    Deriv mp2 cs [] := by
  cases cs with
  | nil => exact absurd rfl hne
  | cons c t =>
    exact Deriv.seq (.altR .eps) (Deriv.seq (.altR .eps) (Deriv.seq .starNil
      (Deriv.seq (Deriv.grp (Deriv.seq (Deriv.any (hnl c (by simp)))
        (deriv_star_any true t (fun c' hc' => hnl c' (by simp [hc'])))))
      (Deriv.seq .starNil (Deriv.seq (.altR .eps) (Deriv.seq (.altR .eps)
        Deriv.eolNil))))))

/-- The engine therefore matches mp2 on every non-empty newline-free input. -/
theorem reMatch_mp2_isSome {cs : List Nat} (hne : cs ≠ [])
    (hnl : ∀ c ∈ cs, c ≠ 10) : (reMatch mp2 cs).isSome = true :=
  matchC_complete (deriv_mp2 hne hnl) [] _ (fun _ => rfl)

/-- The movie loop finds a matching pattern on every non-empty newline-free
input. -/
theorem firstMatch_movies_isSome {cs : List Nat} (hne : cs ≠ [])
    (hnl : ∀ c ∈ cs, c ≠ 10) : (firstMatch moviePatterns cs).isSome = true := by
  show (firstMatch [mp1, mp2] cs).isSome = true
  unfold firstMatch
  cases h1 : reMatch mp1 cs with
  | some g => rfl
  | none =>
    unfold firstMatch
    cases h2 : reMatch mp2 cs with
    | some g => rfl
    | none => exact absurd (reMatch_mp2_isSome hne hnl) (by simp [h2])

/-! ## Claim C9 -/

/-- C9 counterexample: "1x02.avi" is non-empty and newline-free, but the
1x09-style episode pattern matches it without a seriesname capture, so
cleanRegexedName(None) raises a TypeError: parse_filename raises instead of
returning a value containing a Movie descriptor. -/
theorem c9_counterexample :
    parse_filename (codes "1x02.avi") = .error .typeError ∧
    codes "1x02.avi" ≠ [] ∧ ∀ c ∈ codes "1x02.avi", c ≠ 10 := by
  exact ⟨by rfl, by decide, by decide⟩

/-- C9 (amended): for every non-empty newline-free filename, parse_filename
either raises while post-processing an episode-pattern match (as in the
counterexample) or returns a value that contains a Movie descriptor — the
generic fallback movie pattern matches every such string, so the
"unrecognized" return value ⟨none, none⟩ is unreachable for them; the empty
string does return "unrecognized". -/
theorem c9_movie_always_matches :
    (∀ (cs : List Nat) (p : Parsed), cs ≠ [] → (∀ c ∈ cs, c ≠ 10) →
      parse_filename cs = .ok p → p.movie.isSome = true) ∧
    parse_filename [] = .ok ⟨none, none⟩ := by
  constructor
  · intro cs p hne hnl h
    obtain ⟨hs, hm⟩ := parse_inv h
    have hfm := firstMatch_movies_isSome hne hnl
    cases hfm2 : firstMatch moviePatterns cs with
    | none => rw [hfm2] at hfm; cases hfm
    | some pg =>
      obtain ⟨pt, g⟩ := pg
      unfold movieStage at hm
      rw [hfm2] at hm
      dsimp only at hm
      cases hb : buildMovie pt g with
      | error e => rw [hb] at hm; simp [Except.map] at hm
      | ok mv =>
        rw [hb] at hm
        simp only [Except.map, Except.ok.injEq] at hm
        rw [← hm]
        rfl
  · rfl

/-- Witness for c9_movie_always_matches at a concrete filename. -/
theorem c9_witness :
    (Parsed.mk (some ⟨codes "Show Name", 1, some [2]⟩)
      (some ⟨codes "Show Name S01E02 Group", none⟩)).movie.isSome = true :=
  c9_movie_always_matches.1 (codes "Show.Name.S01E02.Group.mkv")
    ⟨some ⟨codes "Show Name", 1, some [2]⟩,
     some ⟨codes "Show Name S01E02 Group", none⟩⟩
    (by decide) (by decide) (by rfl)

/-! ## Claim C2 -/

/-- Decidable equality of Except outcomes, for concrete evaluations. -/
instance {ε α : Type} [DecidableEq ε] [DecidableEq α] : DecidableEq (Except ε α) :=
  fun a b =>
    match a, b with
    | .ok x, .ok y => if h : x = y then .isTrue (by rw [h]) else .isFalse (by simp [h])
    | .error x, .error y => if h : x = y then .isTrue (by rw [h]) else .isFalse (by simp [h])
    | .ok _, .error _ => .isFalse (by simp)
    | .error _, .ok _ => .isFalse (by simp)

/-- A detail record used by the concrete hash-resolver scenarios. -/
def stubMedia : Media := ⟨"movie", some 120, "/title/tt0123456/", none⟩

/-- A get_title stub that always succeeds with stubMedia. -/
def stubGetTitle : Bool → String → Except Unit Media := fun _ _ => .ok stubMedia

/-- A single hash candidate of kind movie. -/
def movieCand : OsCand := ⟨"movie", 0, 0, codes "Some Movie", "0123456"⟩

/-- The parse of "Show.Name.S01E02.Group.mkv", which populates both
variants (see c1_counterexample). -/
def bothParsed : Parsed :=
  match parse_filename (codes "Show.Name.S01E02.Group.mkv") with
  | .ok p => p
  | .error _ => ⟨none, none⟩

/-- C2 counterexample: the filename parses to an Episode descriptor, the
hash lookup returns exactly one candidate of kind movie, and the hash stage
accepts it (returning the fetched record) instead of yielding no-result:
the kind test is membership among the keys of the parsed dict, and the
movie fallback pattern also put a Movie descriptor there. -/
theorem c2_counterexample :
    bothParsed.episode.isSome = true ∧
    search_hash (some "h") bothParsed (.ok (some [movieCand])) (fun _ _ => 0)
      stubGetTitle = .ok (some stubMedia) := by
  exact ⟨by rfl, by rfl⟩

/-- C2 (amended): a single hash candidate is accepted exactly when a
descriptor of its kind was parsed (the kind string is looked up among the
keys of the parsed dict, which for ordinary filenames include movie even
when an episode was parsed); otherwise the stage yields no-result and the
orchestrator falls through to text resolution. -/
theorem c2_single_candidate_membership :
    ∀ (h : String) (parsed : Parsed) (cand : OsCand)
      (ratio : List Nat → List Nat → Nat)
      (getTitle : Bool → String → Except Unit Media),
      (kindInParsed parsed cand.MovieKind = false →
        search_hash (some h) parsed (.ok (some [cand])) ratio getTitle = .ok none) ∧
      (kindInParsed parsed cand.MovieKind = true →
        search_hash (some h) parsed (.ok (some [cand])) ratio getTitle =
          fetchDetail getTitle (cand.MovieKind == "movie") cand.MovieImdbID) := by
  intro h parsed cand ratio getTitle
  constructor
  · intro hk
    simp [search_hash, hk]
  · intro hk
    simp [search_hash, hk]

/-- An episode-only parsed dict (reachable for filenames with an interior
newline, where the movie patterns cannot match). -/
def epOnlyParsed : Parsed := ⟨some ⟨codes "Foo", 1, some [1]⟩, none⟩

/-- A movie-only parsed dict. -/
def mvOnlyParsed : Parsed := ⟨none, some ⟨codes "Foo", none⟩⟩

/-- Witness for c2_single_candidate_membership in both directions. -/
theorem c2_witness :
    search_hash (some "h") epOnlyParsed (.ok (some [movieCand])) (fun _ _ => 0)
      stubGetTitle = .ok none ∧
    search_hash (some "h") mvOnlyParsed (.ok (some [movieCand])) (fun _ _ => 0)
      stubGetTitle = .ok (some stubMedia) := by
  constructor
  · exact (c2_single_candidate_membership "h" epOnlyParsed movieCand
      (fun _ _ => 0) stubGetTitle).1 (by decide)
  · exact ((c2_single_candidate_membership "h" mvOnlyParsed movieCand
      (fun _ _ => 0) stubGetTitle).2 (by decide)).trans (by rfl)

/-! ## Claim C3 -/

/-- The episode descriptor of the C3 scenario. -/
def c3ep : Series := ⟨codes "Foo", 1, some [1]⟩

/-- First candidate: right kind, season and episode, wrong name. -/
def c3cand1 : OsCand := ⟨"episode", 1, 1, codes "Bar thing", "111"⟩

/-- Second candidate: right kind, season and episode, wrong name. -/
def c3cand2 : OsCand := ⟨"episode", 1, 1, codes "Baz thing", "222"⟩

unseal Rat.mul Rat.inv Rat.add Rat.sub in
/-- C3 (code bug): line 1083 compares the 0-100 integer fuzzywuzzy score
against .8, so the best season/episode-matching candidate is accepted
whenever its score is at least 1.  Here both candidates score 50, well
below the documented threshold of 80 (the hash-submission path at line 1302
uses the same scale with threshold 70), and the stage still accepts the
first one and returns its fetched record instead of yielding no-result. -/
theorem c3_threshold_bug :
    search_hash (some "h") ⟨some c3ep, none⟩ (.ok (some [c3cand1, c3cand2]))
      (fun _ _ => 50) stubGetTitle = .ok (some stubMedia) ∧ 50 < 80 := by
  exact ⟨by rfl, by decide⟩

/-! ## Claim C10 -/

/-- C10: with several candidates, an Episode descriptor, and no candidate of
kind episode matching the descriptor's season and first requested episode,
the fuzzy fallback applies max to an empty sequence: search_hash raises an
exception that is not a ResolveException, and the whole resolve invocation
crashes instead of the hash stage yielding no-result and falling through to
text resolution. -/
theorem c10_empty_max_crashes :
    ∀ (h : String) (parsed : Parsed) (ep : Series) (e0 : Nat) (erest : List Nat)
      (medias : List OsCand) (ratio : List Nat → List Nat → Nat)
      (getTitle : Bool → String → Except Unit Media)
      (duration : Option ℚ) (textStage : Except Unit (Option TextR))
      (gtExp : String → Except Unit Media),
      parsed.episode = some ep →
      ep.episodes = some (e0 :: erest) →
      1 < medias.length →
      (∀ m ∈ medias, ¬(m.MovieKind = "episode" ∧ m.SeriesSeason = ep.season ∧
        m.SeriesEpisode = e0)) →
      search_hash (some h) parsed (.ok (some medias)) ratio getTitle = .error .uncaught ∧
      resolve_pipeline parsed (some h) duration
        (search_hash (some h) parsed (.ok (some medias)) ratio getTitle)
        textStage gtExp = .crash := by
  intro h parsed ep e0 erest medias ratio getTitle duration textStage gtExp
    hep heps hlen hno
  have hsh : search_hash (some h) parsed (.ok (some medias)) ratio getTitle =
      .error .uncaught := by
    cases medias with
    | nil => simp at hlen
    | cons a rest =>
      cases rest with
      | nil => simp at hlen
      | cons b t =>
        have hfind : (a :: b :: t).find? (fun m =>
            m.MovieKind == "episode" && m.SeriesSeason == ep.season &&
            m.SeriesEpisode == e0 &&
            (34 :: (ep.showName.map lowerN) ++ [34]).isPrefixOf
              (m.MovieName.map lowerN)) = none := by
          apply List.find?_eq_none.mpr
          intro x hx
          have hnx := hno x hx
          simp only [Bool.and_eq_true, beq_iff_eq, not_and, Bool.not_eq_true]
          by_cases h1 : x.MovieKind = "episode"
          · by_cases h2 : x.SeriesSeason = ep.season
            · by_cases h3 : x.SeriesEpisode = e0
              · exact absurd ⟨h1, h2, h3⟩ hnx
              · simp [h3]
            · simp [h2]
          · simp [h1]
        have hfil : (a :: b :: t).filter (fun m =>
            m.MovieKind == "episode" && m.SeriesSeason == ep.season &&
            m.SeriesEpisode == e0) = [] := by
          rw [List.filter_eq_nil_iff]
          intro x hx
          have hnx := hno x hx
          simp only [Bool.and_eq_true, beq_iff_eq, not_and, Bool.not_eq_true]
          by_cases h1 : x.MovieKind = "episode"
          · by_cases h2 : x.SeriesSeason = ep.season
            · by_cases h3 : x.SeriesEpisode = e0
              · exact absurd ⟨h1, h2, h3⟩ hnx
              · simp [h3]
            · simp [h2]
          · simp [h1]
        simp only [search_hash, hep, heps, hfind, hfil]
  refine ⟨hsh, ?_⟩
  rw [hsh]
  rfl

/-- First candidate for the C10 witness: wrong kind, wrong numbers. -/
def c10cand1 : OsCand := ⟨"movie", 0, 0, codes "A", "1"⟩

/-- Second candidate for the C10 witness: wrong kind, wrong numbers. -/
def c10cand2 : OsCand := ⟨"movie", 0, 0, codes "B", "2"⟩

/-- Witness for c10_empty_max_crashes. -/
theorem c10_witness :
    search_hash (some "h") ⟨some ⟨codes "Z", 2, some [5]⟩, none⟩
      (.ok (some [c10cand1, c10cand2])) (fun _ _ => 0) stubGetTitle =
        .error .uncaught ∧
    resolve_pipeline ⟨some ⟨codes "Z", 2, some [5]⟩, none⟩ (some "h") none
      (search_hash (some "h") ⟨some ⟨codes "Z", 2, some [5]⟩, none⟩
        (.ok (some [c10cand1, c10cand2])) (fun _ _ => 0) stubGetTitle)
      (.ok none) (fun _ => .error ()) = .crash :=
  c10_empty_max_crashes "h" ⟨some ⟨codes "Z", 2, some [5]⟩, none⟩
    ⟨codes "Z", 2, some [5]⟩ 5 [] [c10cand1, c10cand2] (fun _ _ => 0) stubGetTitle
    none (.ok none) (fun _ => .error ())
    (by rfl) (by rfl) (by decide) (by decide)

/-! ## Claim C4 -/

theorem varQ_nonneg (rs : List ScoredR) : 0 ≤ varQ rs := by
  unfold varQ
  apply div_nonneg
  · apply List.sum_nonneg
    intro x hx
    simp only [List.mem_map] at hx
    obtain ⟨r, _, rfl⟩ := hx
    positivity
  · positivity

/-- The decidable rational test of surviveB decides exactly the real-valued
threshold "score at least mean plus one population standard deviation". -/
theorem surviveB_iff_real (rs : List ScoredR) (f : Nat) :
    surviveB rs f = true ↔
      (meanQ rs : ℝ) + Real.sqrt (varQ rs : ℝ) ≤ (f : ℝ) := by
  unfold surviveB
  rw [decide_eq_true_iff]
  have hv : (0 : ℝ) ≤ ((varQ rs : ℚ) : ℝ) := by exact_mod_cast varQ_nonneg rs
  constructor
  · rintro ⟨h1, h2⟩
    have h1' : ((meanQ rs : ℚ) : ℝ) ≤ (f : ℝ) := by exact_mod_cast h1
    have h2' : ((varQ rs : ℚ) : ℝ) ≤ ((f : ℝ) - ((meanQ rs : ℚ) : ℝ)) ^ 2 := by
      exact_mod_cast h2
    have h3 : Real.sqrt (varQ rs : ℝ) ≤ (f : ℝ) - ((meanQ rs : ℚ) : ℝ) := by
      have h4 := Real.sqrt_le_sqrt h2'
      rwa [Real.sqrt_sq (by linarith)] at h4
    linarith
  · intro h
    have hs := Real.sqrt_nonneg ((varQ rs : ℚ) : ℝ)
    have h1 : ((meanQ rs : ℚ) : ℝ) ≤ (f : ℝ) := by linarith
    have h3 : Real.sqrt (varQ rs : ℝ) ≤ (f : ℝ) - ((meanQ rs : ℚ) : ℝ) := by linarith
    have h2 : ((varQ rs : ℚ) : ℝ) ≤ ((f : ℝ) - ((meanQ rs : ℚ) : ℝ)) ^ 2 := by
      have h4 := mul_self_le_mul_self hs h3
      rw [Real.mul_self_sqrt hv] at h4
      nlinarith [h4]
    constructor
    · exact_mod_cast h1
    · exact_mod_cast h2

/-- The score list [95, 94, 40, 38] of the specification's example. -/
def c4list : List ScoredR :=
  [⟨codes "A", none, "1", 95⟩, ⟨codes "B", none, "2", 94⟩,
   ⟨codes "C", none, "3", 40⟩, ⟨codes "D", none, "4", 38⟩]

unseal Rat.mul Rat.inv Rat.add Rat.sub in
/-- C4: the survivor filter of the duration branch keeps exactly the
results whose score is at least the mean plus one population standard
deviation (variance computed dividing by N) of the scores of the possibly
year-restricted set, and on scores [95, 94, 40, 38] (mean 66.75, population
standard deviation about 27.8) only the 95-scorer survives. -/
theorem c4_statistical_filter :
    (∀ (rs : List ScoredR) (r : ScoredR),
      r ∈ statFilter rs ↔ r ∈ rs ∧
        (meanQ rs : ℝ) + Real.sqrt (varQ rs : ℝ) ≤ (r.fuzzRatio : ℝ)) ∧
    statFilter c4list = [⟨codes "A", none, "1", 95⟩] := by
  constructor
  · intro rs r
    unfold statFilter
    rw [List.mem_filter, surviveB_iff_real]
  · rfl

/-- Witness for c4_statistical_filter at the 95-scorer of the example. -/
theorem c4_witness :
    (⟨codes "A", none, "1", 95⟩ : ScoredR) ∈ statFilter c4list ↔
      (⟨codes "A", none, "1", 95⟩ : ScoredR) ∈ c4list ∧
        (meanQ c4list : ℝ) + Real.sqrt (varQ c4list : ℝ) ≤
          ((⟨codes "A", none, "1", 95⟩ : ScoredR).fuzzRatio : ℝ) :=
  c4_statistical_filter.1 c4list ⟨codes "A", none, "1", 95⟩

/-! ## Claim C5 -/

/-- Modelled from the spec (claim C5): the comparison key "closest in
absolute difference to the supplied duration, a missing runtime being
treated as infinitely far" — none is the infinite key. -/
def specKey (duration : ℚ) (m : Media) : Option ℚ :=
  m.runningTimeInMinutes.map fun rt => |rt * 60 - duration|

/-- Modelled from the spec: strict ordering of spec keys, none being
infinitely far. -/
def specLtB : Option ℚ → Option ℚ → Bool
  | some a, some b => decide (a < b)
  | some _, none => true
  | none, _ => false

/-- Modelled from the spec: the first survivor with minimal key (ties
broken by first occurrence in the survivor list). -/
def specSelect (duration : ℚ) (h : DetR) (t : List DetR) : DetR :=
  t.foldl (fun best m =>
    if specLtB (specKey duration m.details) (specKey duration best.details) then m
    else best) h

theorem pyKey_lt_iff (d : ℚ) (m b : Media)
    (hm : ∀ rt, m.runningTimeInMinutes = some rt → |rt * 60 - d| < sysMaxint)
    (hb : ∀ rt, b.runningTimeInMinutes = some rt → |rt * 60 - d| < sysMaxint) :
    pyKey d m < pyKey d b ↔ specLtB (specKey d m) (specKey d b) = true := by
  unfold pyKey specKey specLtB
  cases hm' : m.runningTimeInMinutes with
  | none =>
    cases hb' : b.runningTimeInMinutes with
    | none => simp
    | some rtb =>
      have h1 := hb rtb hb'
      simp only [Option.map_none', Option.map_some']
      constructor
      · intro h2; exact absurd h2 (by push_neg; linarith)
      · intro h2; cases h2
  | some rtm =>
    cases hb' : b.runningTimeInMinutes with
    | none =>
      have h1 := hm rtm hm'
      simp only [Option.map_none', Option.map_some']
      constructor
      · intro _; trivial
      · intro _; exact h1
    | some rtb =>
      simp only [Option.map_some', decide_eq_true_iff]

/-- get_title stub for the C5 scenario: id "1" is the 90-minute movie, any
other id the 120-minute movie. -/
def c5getTitle : String → Except Unit Media := fun s =>
  if s = "1" then .ok ⟨"movie", some 90, "/title/tt1/", none⟩
  else .ok ⟨"movie", some 120, "/title/tt2/", none⟩

unseal Rat.mul Rat.inv Rat.add Rat.sub in
/-- C5: with a duration hint, the survivor selected is the first one whose
runtime converted to seconds is closest in absolute difference to the
supplied duration, a missing runtime being treated as infinitely far (the
source uses the finite sentinel sys.maxint, which agrees with the idealised
key as long as every present runtime's distance stays below it); in the
end-to-end example with survivor runtimes 5400 and 7200 seconds and
duration 7100, the second survivor is selected. -/
theorem c5_closest_runtime :
    (∀ (d : ℚ) (h : DetR) (t : List DetR),
      (∀ x ∈ h :: t, ∀ rt, x.details.runningTimeInMinutes = some rt →
        |rt * 60 - d| < sysMaxint) →
      argminFirst (fun x => pyKey d x.details) h t = specSelect d h t) ∧
    search_text_movie ⟨codes "M", none⟩ (some 7100)
      (.ok [⟨codes "M", none, "1"⟩, ⟨codes "M", none, "2"⟩])
      (fun _ _ => 90) c5getTitle =
      .ok (some ⟨⟨"movie", some 120, "/title/tt2/", none⟩, some 90⟩) := by
  constructor
  · intro d h t
    induction t generalizing h with
    | nil => intro _; rfl
    | cons m t' ih =>
      intro hbound
      have hm := fun rt hrt => hbound m (by simp) rt hrt
      have hh := fun rt hrt => hbound h (by simp) rt hrt
      have hiff := pyKey_lt_iff d m.details h.details hm hh
      have e1 : argminFirst (fun x => pyKey d x.details) h (m :: t') =
          argminFirst (fun x => pyKey d x.details)
            (if pyKey d m.details < pyKey d h.details then m else h) t' := rfl
      have e2 : specSelect d h (m :: t') =
          specSelect d
            (if specLtB (specKey d m.details) (specKey d h.details) then m else h)
            t' := rfl
      rw [e1, e2]
      by_cases hlt : pyKey d m.details < pyKey d h.details
      · rw [if_pos hlt, if_pos (hiff.mp hlt)]
        exact ih m (fun x hx rt hrt => hbound x
          (by simp only [List.mem_cons] at hx ⊢; tauto) rt hrt)
      · rw [if_neg hlt, if_neg (fun hc => hlt (hiff.mpr hc))]
        exact ih h (fun x hx rt hrt => hbound x
          (by simp only [List.mem_cons] at hx ⊢; tauto) rt hrt)
  · rfl

/-- First survivor of the C5 witness: a 90-minute movie. -/
def c5det1 : DetR := ⟨⟨codes "M", none, "1", 90⟩, ⟨"movie", some 90, "/title/tt1/", none⟩⟩

/-- Second survivor of the C5 witness: a 120-minute movie. -/
def c5det2 : DetR := ⟨⟨codes "M", none, "2", 90⟩, ⟨"movie", some 120, "/title/tt2/", none⟩⟩

/-- Witness for c5_closest_runtime. -/
theorem c5_witness :
    argminFirst (fun x => pyKey 7100 x.details) c5det1 [c5det2] =
      specSelect 7100 c5det1 [c5det2] := by
  apply c5_closest_runtime.1
  intro x hx rt hrt
  rcases List.mem_cons.mp hx with rfl | hx2
  · have h90 : rt = 90 := by
      have : (some (90 : ℚ) : Option ℚ) = some rt := hrt
      simpa using this.symm
    subst h90
    rw [abs_lt]
    constructor <;> norm_num [sysMaxint]
  · rcases List.mem_singleton.mp hx2 with rfl
    have h120 : rt = 120 := by
      have : (some (120 : ℚ) : Option ℚ) = some rt := hrt
      simpa using this.symm
    subst h120
    rw [abs_lt]
    constructor <;> norm_num [sysMaxint]

/-! ## Claim C6 -/

/-- A resolved episode record with no declared runtime and a next-episode
reference. -/
def c6media : Media := ⟨"tvEpisode", none, "/title/tt1/", some "/title/tt2/"⟩

/-- The final media list never changes the inserted flag. -/
theorem resolve_tail_inserted {parsed : Parsed} {gtExp : String → Except Unit Media}
    {m : Media} {ptype : String} {inserted : Bool} {o : PipeOut}
    (h : resolve_tail parsed gtExp m ptype inserted = .out o) :
    o.inserted = inserted := by
  unfold resolve_tail at h
  by_cases hp : (ptype == "episode") = true
  · rw [if_pos hp] at h
    cases hpe : parsed.episode with
    | none => rw [hpe] at h; cases h
    | some ep =>
      rw [hpe] at h
      dsimp only at h
      cases heps : ep.episodes with
      | none => rw [heps] at h; cases h
      | some eps =>
        rw [heps] at h
        dsimp only at h
        by_cases hl : eps.length > 1
        · rw [if_pos hl] at h
          cases hexp : expandLoop gtExp (eps.length - 1) m [m] with
          | error e => rw [hexp] at h; cases h
          | ok l => rw [hexp] at h; cases h; rfl
        · rw [if_neg hl] at h; cases h; rfl
  · rw [if_neg hp] at h; cases h; rfl

/-- C6 counterexample: a hash was supplied, the hash stage yielded nothing,
the text stage resolved an episode — every condition of the claim holds —
and yet no submission happens: with no supplied duration and no declared
runtime the helper computes None * 60. and the whole invocation crashes
before reaching the API call. -/
theorem c6_counterexample :
    resolve_pipeline ⟨some ⟨codes "Foo", 1, some [1]⟩, none⟩ (some "h") none
      (.ok none) (.ok (some (.pair c6media))) (fun _ => .error ()) = .crash := by
  rfl

/-- C6 (amended): the hash submission is never attempted after a hash-based
resolution; after a text-based resolution that completes without crashing,
it is attempted exactly when a hash was supplied and — when the resolved
record is not an episode — the similarity ratio is at least 70 (an episode
record needs no ratio condition); when neither a duration was supplied nor
a runtime is declared, the helper instead crashes before submitting (see
the counterexample). -/
theorem c6_insert_gating :
    ∀ (parsed : Parsed) (oshash : Option String) (duration : Option ℚ)
      (hashStage : Except HErr (Option Media))
      (textStage : Except Unit (Option TextR))
      (gtExp : String → Except Unit Media) (o : PipeOut),
      resolve_pipeline parsed oshash duration hashStage textStage gtExp = .out o →
      ((∀ m, hashStage = .ok (some m) → o.inserted = false) ∧
       (hashStage = .ok none ∨ hashStage = .error .resolve →
        (o.inserted = true ↔
          oshash.isSome = true ∧
          ∃ tr, textStage = .ok (some tr) ∧
            ((textMedia tr).titleType = "tvEpisode" ∨ 70 ≤ textRatio tr)))) := by
  intro parsed oshash duration hashStage textStage gtExp o hout
  constructor
  · intro m hm
    subst hm
    cases oshash with
    | none =>
      have e : resolve_pipeline parsed none duration (.ok (some m)) textStage gtExp =
          resolve_tail parsed gtExp (textMedia (.pair m))
            (if (textMedia (.pair m)).titleType == "tvEpisode" then "episode"
             else "movie") false := rfl
      rw [e] at hout
      exact resolve_tail_inserted hout
    | some a =>
      have e : resolve_pipeline parsed (some a) duration (.ok (some m)) textStage gtExp =
          resolve_tail parsed gtExp (textMedia (.pair m))
            (if (textMedia (.pair m)).titleType == "tvEpisode" then "episode"
             else "movie") false := rfl
      rw [e] at hout
      exact resolve_tail_inserted hout
  · intro hhash
    -- under either hash outcome the pipeline continues with the text stage
    have hstep : resolve_pipeline parsed oshash duration hashStage textStage gtExp =
        resolve_pipeline parsed oshash duration (.ok none) textStage gtExp := by
      rcases hhash with rfl | rfl <;> rfl
    rw [hstep] at hout
    clear hstep hhash
    cases textStage with
    | error e => cases hout
    | ok tOpt =>
      cases tOpt with
      | none =>
        cases hout
        simp
      | some tr =>
        cases oshash with
        | none =>
          have e : resolve_pipeline parsed none duration (.ok none) (.ok (some tr)) gtExp =
              resolve_tail parsed gtExp (textMedia tr)
                (if (textMedia tr).titleType == "tvEpisode" then "episode"
                 else "movie") false := rfl
          rw [e] at hout
          have hi := resolve_tail_inserted hout
          simp [hi]
        | some a =>
          have e0 : resolve_pipeline parsed (some a) duration (.ok none)
              (.ok (some tr)) gtExp =
              (match
                (if ((if (textMedia tr).titleType == "tvEpisode" then "episode"
                      else "movie") == "movie" && decide (textRatio tr < 70)) then
                  Except.ok false
                 else
                  match durTruthy duration, (textMedia tr).runningTimeInMinutes with
                  | true, _ => Except.ok true
                  | false, some _ => Except.ok true
                  | false, none => (Except.error () : Except Unit Bool)) with
               | Except.error _ => PipeResult.crash
               | Except.ok inserted =>
                 resolve_tail parsed gtExp (textMedia tr)
                   (if (textMedia tr).titleType == "tvEpisode" then "episode"
                    else "movie") inserted) := rfl
          rw [e0] at hout
          by_cases ht : ((textMedia tr).titleType == "tvEpisode") = true
          · -- episode record: the ratio condition is vacuous
            have htt : (textMedia tr).titleType = "tvEpisode" := by simpa using ht
            have hbeq : (("episode" : String) == "movie") = false := by decide
            simp only [ht, if_true, hbeq, Bool.false_and, Bool.false_eq_true,
              if_false] at hout
            cases hd : durTruthy duration with
            | true =>
              rw [hd] at hout
              have hi := resolve_tail_inserted hout
              rw [hi]
              constructor
              · intro _
                exact ⟨rfl, tr, rfl, Or.inl htt⟩
              · intro _
                rfl
            | false =>
              rw [hd] at hout
              cases hrt : (textMedia tr).runningTimeInMinutes with
              | none => rw [hrt] at hout; cases hout
              | some rt =>
                rw [hrt] at hout
                have hi := resolve_tail_inserted hout
                rw [hi]
                constructor
                · intro _
                  exact ⟨rfl, tr, rfl, Or.inl htt⟩
                · intro _
                  rfl
          · -- non-episode record: the ratio threshold decides
            simp only [Bool.not_eq_true] at ht
            have hbeq : (("movie" : String) == "movie") = true := by decide
            simp only [ht, Bool.false_eq_true, if_false, hbeq, Bool.true_and] at hout
            by_cases hr : textRatio tr < 70
            · simp only [hr, decide_eq_true_eq, if_true] at hout
              have hi := resolve_tail_inserted hout
              rw [hi]
              simp only [Bool.false_eq_true, false_iff]
              rintro ⟨-, tr', htr', hcond⟩
              obtain rfl : tr' = tr := by simpa using htr'.symm
              rcases hcond with h1 | h1
              · exact absurd h1 (by simpa using ht)
              · omega
            · simp only [hr, Bool.false_eq_true, if_false] at hout
              cases hd : durTruthy duration with
              | true =>
                rw [hd] at hout
                have hi := resolve_tail_inserted hout
                rw [hi]
                constructor
                · intro _
                  exact ⟨rfl, tr, rfl, Or.inr (by omega)⟩
                · intro _
                  rfl
              | false =>
                rw [hd] at hout
                cases hrt : (textMedia tr).runningTimeInMinutes with
                | none => rw [hrt] at hout; cases hout
                | some rt =>
                  rw [hrt] at hout
                  have hi := resolve_tail_inserted hout
                  rw [hi]
                  constructor
                  · intro _
                    exact ⟨rfl, tr, rfl, Or.inr (by omega)⟩
                  · intro _
                    rfl

/-- A resolved movie record with a declared runtime. -/
def c6movie : Media := ⟨"movie", some 100, "/title/tt3/", none⟩

/-- Witness for c6_insert_gating: a movie resolved by text with ratio 80
and a declared runtime; the submission is attempted. -/
theorem c6_witness :
    (∀ m, (Except.ok none : Except HErr (Option Media)) = .ok (some m) →
      (PipeOut.mk [c6movie] true).inserted = false) ∧
    ((Except.ok none : Except HErr (Option Media)) = .ok none ∨
      (Except.ok none : Except HErr (Option Media)) = .error .resolve →
      ((PipeOut.mk [c6movie] true).inserted = true ↔
        (some "h").isSome = true ∧
        ∃ tr, (Except.ok (some (.triple c6movie 80)) :
            Except Unit (Option TextR)) = .ok (some tr) ∧
          ((textMedia tr).titleType = "tvEpisode" ∨ 70 ≤ textRatio tr))) :=
  c6_insert_gating ⟨none, some ⟨codes "Foo", none⟩⟩ (some "h") none (.ok none)
    (.ok (some (.triple c6movie 80))) (fun _ => .error ()) ⟨[c6movie], true⟩ (by rfl)

/-! ## Claim C8 -/

/-- When every fetch succeeds with a record carrying a next-episode
reference, the expansion loop runs to completion and appends exactly its
counter's worth of records. -/
theorem expandLoop_length (gt : String → Except Unit Media)
    (hgt : ∀ s, ∃ m', gt s = .ok m' ∧ m'.nextEpisode.isSome = true) :
    ∀ (k : Nat) (last : Media) (acc : List Media),
      last.nextEpisode.isSome = true →
      ∃ l, expandLoop gt k last acc = .ok l ∧ l.length = acc.length + k := by
  intro k
  induction k with
  | zero =>
    intro last acc _
    exact ⟨acc, rfl, by simp⟩
  | succ n ih =>
    intro last acc hn
    cases href : last.nextEpisode with
    | none => rw [href] at hn; cases hn
    | some ref =>
      obtain ⟨m', hm', hm'n⟩ := hgt (sliceId ref)
      obtain ⟨l, hl, hlen⟩ := ih m' (acc ++ [m']) hm'n
      refine ⟨l, ?_, ?_⟩
      · simp only [expandLoop, href, hm']
        exact hl
      · rw [hlen]
        simp
        omega

/-- C8: when the descriptor is an Episode requesting N > 1 episodes, the
first episode was resolved (by the text stage, as an episode record), every
record in the chain carries a next-episode reference and every detail fetch
succeeds, the expansion loop appends the successive next episodes and the
emitted sequence has length exactly N. -/
theorem c8_expansion_length :
    ∀ (parsed : Parsed) (ep : Series) (eps : List Nat) (duration : Option ℚ)
      (tr : TextR) (gtExp : String → Except Unit Media),
      parsed.episode = some ep →
      ep.episodes = some eps →
      1 < eps.length →
      (textMedia tr).titleType = "tvEpisode" →
      (textMedia tr).nextEpisode.isSome = true →
      (∀ s, ∃ m', gtExp s = .ok m' ∧ m'.nextEpisode.isSome = true) →
      ∃ o, resolve_pipeline parsed none duration (.ok none) (.ok (some tr)) gtExp =
          .out o ∧ o.medias.length = eps.length := by
  intro parsed ep eps duration tr gtExp hep heps hlen htt hnext hgt
  have e0 : resolve_pipeline parsed none duration (.ok none) (.ok (some tr)) gtExp =
      resolve_tail parsed gtExp (textMedia tr)
        (if (textMedia tr).titleType == "tvEpisode" then "episode" else "movie")
        false := rfl
  rw [e0]
  have ht : ((textMedia tr).titleType == "tvEpisode") = true := by
    simp [htt]
  rw [ht]
  simp only [if_true]
  unfold resolve_tail
  rw [if_pos (by decide), hep]
  dsimp only
  rw [heps]
  dsimp only
  rw [if_pos hlen]
  obtain ⟨l, hl, hlen'⟩ :=
    expandLoop_length gtExp hgt (eps.length - 1) (textMedia tr) [textMedia tr] hnext
  rw [hl]
  refine ⟨⟨l, false⟩, rfl, ?_⟩
  simp only [List.length_singleton] at hlen'
  dsimp only
  omega

/-- get_title stub for the C8 witness: every fetch returns the episode
record with a next-episode reference. -/
def c8gt : String → Except Unit Media := fun _ => .ok c6media

/-- Witness for c8_expansion_length with N = 2 requested episodes. -/
theorem c8_witness :
    ∃ o, resolve_pipeline ⟨some ⟨codes "A", 1, some [1, 2]⟩, none⟩ none none
        (.ok none) (.ok (some (.pair c6media))) c8gt = .out o ∧
      o.medias.length = ([1, 2] : List Nat).length :=
  c8_expansion_length ⟨some ⟨codes "A", 1, some [1, 2]⟩, none⟩
    ⟨codes "A", 1, some [1, 2]⟩ [1, 2] none (.pair c6media) c8gt
    (by rfl) (by rfl) (by decide) (by rfl) (by rfl)
    (fun s => ⟨c6media, rfl, rfl⟩)
def c7g : Groups :=
  [("seriesname", codes "X"), ("seasonnumber", codes "1"),
   ("episodenumberstart", codes "05"), ("episodenumberend", codes "03")]

/-- Witness for c7_episode_range_normalized. -/
theorem c7_witness :
    ∃ l, (Series.mk (codes "X") 1 (some [3, 4, 5])).episodes = some l ∧
      List.Sorted (· < ·) l ∧
      ∀ i, i ∈ l ↔ (min (pyInt (codes "05")) (pyInt (codes "03")) ≤ i ∧
        i ≤ max (pyInt (codes "05")) (pyInt (codes "03"))) :=
  c7_episode_range_normalized.1 sp4 c7g (codes "05") (codes "03")
    ⟨codes "X", 1, some [3, 4, 5]⟩ (by rfl) (by rfl) (by decide) (by decide) (by rfl)

end TraktHelper
